import Mathlib

set_option linter.unusedVariables false

/-!
Verification of the latex2mmlc core (lexer + parser) against its
natural-language specification.

The definitions below are a shallow embedding of the Rust sources:
  * `src/latex2mmlc/src/lexer.rs`   (lexer)
  * `src/latex2mmlc/src/parse.rs`   (parser)
  * `src/latex2mmlc/src/arena.rs`   (arena / node lists)
  * `src/latex2mmlc/src/attribute.rs` (attribute enums, text transforms)
  * `src/latex2mmlc/src/token.rs`   (token type, command table)

The lexer state is the list of not-yet-consumed characters (the Rust
`peek` character is the head of that list; the `(len, '\u{0}')` EOF
sentinel becomes the empty list).  Byte offsets carried inside tokens
are dropped: the parser embedded here never inspects them.  The Rust
modules `commands.rs`, `ops.rs`, `error.rs` and the MathML emitter in
`ast.rs` are not among the provided sources; where they are needed they
are modelled from the specification (their doc comments say so).
Mutually recursive parser functions take an explicit fuel argument;
`none` means the fuel ran out (or an out-of-bounds arena access, which
is undefined behaviour in the Rust source, was attempted).
-/

namespace Latex2mmlc

/-! ## Character classes (Rust `char` methods used by the lexer) -/

/-- Rust `char::is_ascii_whitespace`: space, tab, newline, form feed, carriage return. -/
def isAsciiWhitespace (c : Char) : Bool :=
  c = ' ' || c = '\t' || c = '\n' || c = '\x0c' || c = '\r'

/-- Rust `char::is_ascii_alphabetic`. -/
def isAsciiAlphabetic (c : Char) : Bool :=
  ('A' ≤ c && c ≤ 'Z') || ('a' ≤ c && c ≤ 'z')

/-- Rust `char::is_ascii_digit`. -/
def isAsciiDigit (c : Char) : Bool :=
  '0' ≤ c && c ≤ '9'

/-- Rust `char::is_ascii_graphic` (U+0021 ..= U+007E). -/
def isAsciiGraphic (c : Char) : Bool :=
  '!' ≤ c && c ≤ '~'

/-! ## Attribute enums (`attribute.rs`) -/

inductive MathVariant | Normal
deriving DecidableEq, Repr

inductive Accent | True | False
deriving DecidableEq, Repr

inductive OpAttr | StretchyTrue | StretchyFalse | NoMovableLimits
deriving DecidableEq, Repr

inductive Style | DisplayStyle | TextStyle | ScriptStyle | ScriptScriptStyle
deriving DecidableEq, Repr

inductive Align | Center | Left | Alternating
deriving DecidableEq, Repr

inductive MathSpacing | Zero | FourMu
deriving DecidableEq, Repr

/-- Display-style flag carried by `\frac`/`\tfrac`/`\dfrac` and the
`\binom` family (`token.rs` `DisplayStyle`). -/
inductive DisplayStyle | True | False
deriving DecidableEq, Repr

inductive TextTransform
  | Bold | BoldFraktur | BoldItalic | BoldSansSerif | BoldScript
  | DoubleStruck | Fraktur | Italic | Monospace | SansSerif
  | SansSerifBoldItalic | SansSerifItalic | Script
deriving DecidableEq, Repr

/-! ## Operator code points (`ops.rs` is not among the sources; the
constants used by the given lexer/parser are fixed by the spec: the
sentinel `NULL` means "emit no delimiter", `FULL_STOP` is `.`, etc.) -/

/-- An operator is a Unicode code point (`ops::Op` wraps a `char`). -/
abbrev Op := Char

namespace ops
def NULL : Op := '\x00'
def FULL_STOP : Op := '.'
def COMMA : Op := ','
def EQUALS_SIGN : Op := '='
def SEMICOLON : Op := ';'
def LEFT_PARENTHESIS : Op := '('
def RIGHT_PARENTHESIS : Op := ')'
def LEFT_SQUARE_BRACKET : Op := '['
def RIGHT_SQUARE_BRACKET : Op := ']'
def LEFT_CURLY_BRACKET : Op := '{'
def RIGHT_CURLY_BRACKET : Op := '}'
def VERTICAL_LINE : Op := '|'
def PLUS_SIGN : Op := '+'
def MINUS_SIGN : Op := '−'
def ASTERISK : Op := '*'
def EXCLAMATION_MARK : Op := '!'
def COLON : Op := ':'
def PRIME : Op := '′'
def NOT_LESS_THAN : Op := '≮'
def NOT_GREATER_THAN : Op := '≯'
def IDENTICAL_TO : Op := '≡'
def ISIN : Op := '∈'
def NI : Op := '∋'
def NOTIN : Op := '∉'
def NOT_EQUAL : Op := '≠'
def TIMES : Op := '×'
def SUM : Op := '∑'
def PROD : Op := '∏'
def INTEGRAL : Op := '∫'
def FORALL : Op := '∀'
def EXISTS : Op := '∃'
end ops

/-! ## Tokens (`token.rs`, shape as used by the given `parse.rs`) -/

inductive Token
  | EOF
  | Begin
  | End
  | Ampersand
  | NewLine
  | Left
  | Right
  | Middle
  | Paren (op : Op)
  | SquareBracketClose
  | GroupBegin
  | GroupEnd
  | Frac (displaystyle : Option DisplayStyle)
  | Underscore
  | Circumflex
  | Prime
  | Binom (displaystyle : Option DisplayStyle)
  | Overset
  | Underset
  | Overbrace (op : Op)
  | Underbrace (op : Op)
  | Sqrt
  | Integral (op : Op)
  | Lim (name : String)
  | Space (width : String)
  | NonBreakingSpace
  | Style (style : Style)
  | NormalVariant
  | Transform (tf : TextTransform)
  | Big (size : String)
  | Over (op : Op)
  | Under (op : Op)
  | Operator (op : Op)
  | OpGreaterThan
  | OpLessThan
  | OpAmpersand
  | Colon
  | BigOp (op : Op)
  | Letter (c : Char)
  | NormalLetter (c : Char)
  | Number (s : String)
  | NumberWithDot (s : String)
  | NumberWithComma (s : String)
  | Function (name : String)
  | OperatorName
  | Slashed
  | Not
  | Text
  | Mathstrut
  | Genfrac
  | Limits
  | UnknownCommand (name : String)
deriving Repr

/-- Constructor index of a token (decidable equality is hand-rolled
through an injective encoding: the automatically derived instance's
auxiliary match over all constructor pairs is impractically large). -/
def Token.encIdx : Token → Nat
  | .EOF => 0
  | .Begin => 1
  | .End => 2
  | .Ampersand => 3
  | .NewLine => 4
  | .Left => 5
  | .Right => 6
  | .Middle => 7
  | .Paren _ => 8
  | .SquareBracketClose => 9
  | .GroupBegin => 10
  | .GroupEnd => 11
  | .Frac _ => 12
  | .Underscore => 13
  | .Circumflex => 14
  | .Prime => 15
  | .Binom _ => 16
  | .Overset => 17
  | .Underset => 18
  | .Overbrace _ => 19
  | .Underbrace _ => 20
  | .Sqrt => 21
  | .Integral _ => 22
  | .Lim _ => 23
  | .Space _ => 24
  | .NonBreakingSpace => 25
  | .Style _ => 26
  | .NormalVariant => 27
  | .Transform _ => 28
  | .Big _ => 29
  | .Over _ => 30
  | .Under _ => 31
  | .Operator _ => 32
  | .OpGreaterThan => 33
  | .OpLessThan => 34
  | .OpAmpersand => 35
  | .Colon => 36
  | .BigOp _ => 37
  | .Letter _ => 38
  | .NormalLetter _ => 39
  | .Number _ => 40
  | .NumberWithDot _ => 41
  | .NumberWithComma _ => 42
  | .Function _ => 43
  | .OperatorName => 44
  | .Slashed => 45
  | .Not => 46
  | .Text => 47
  | .Mathstrut => 48
  | .Genfrac => 49
  | .Limits => 50
  | .UnknownCommand _ => 51

/-- Character payload of a token (NUL when absent). -/
def Token.encChar : Token → Char
  | .Paren x => x
  | .Overbrace x => x
  | .Underbrace x => x
  | .Integral x => x
  | .Over x => x
  | .Under x => x
  | .Operator x => x
  | .BigOp x => x
  | .Letter x => x
  | .NormalLetter x => x
  | _ => '\x00'

/-- String payload of a token (empty when absent). -/
def Token.encStr : Token → String
  | .Lim x => x
  | .Space x => x
  | .Big x => x
  | .Number x => x
  | .NumberWithDot x => x
  | .NumberWithComma x => x
  | .Function x => x
  | .UnknownCommand x => x
  | _ => ""

/-- Display-style payload of a token. -/
def Token.encDS : Token → Option DisplayStyle
  | .Frac x => x
  | .Binom x => x
  | _ => none

/-- Style payload of a token. -/
def Token.encSty : Token → Latex2mmlc.Style
  | .Style x => x
  | _ => .DisplayStyle

/-- Text-transform payload of a token. -/
def Token.encTf : Token → TextTransform
  | .Transform x => x
  | _ => .Bold

/-- Decoder matching the encoding (a retraction of it). -/
def Token.decode (k : Nat) (c : Char) (s : String) (d : Option DisplayStyle)
    (st : Latex2mmlc.Style) (tf : TextTransform) : Token :=
  match k with
  | 0 => .EOF
  | 1 => .Begin
  | 2 => .End
  | 3 => .Ampersand
  | 4 => .NewLine
  | 5 => .Left
  | 6 => .Right
  | 7 => .Middle
  | 8 => .Paren c
  | 9 => .SquareBracketClose
  | 10 => .GroupBegin
  | 11 => .GroupEnd
  | 12 => .Frac d
  | 13 => .Underscore
  | 14 => .Circumflex
  | 15 => .Prime
  | 16 => .Binom d
  | 17 => .Overset
  | 18 => .Underset
  | 19 => .Overbrace c
  | 20 => .Underbrace c
  | 21 => .Sqrt
  | 22 => .Integral c
  | 23 => .Lim s
  | 24 => .Space s
  | 25 => .NonBreakingSpace
  | 26 => .Style st
  | 27 => .NormalVariant
  | 28 => .Transform tf
  | 29 => .Big s
  | 30 => .Over c
  | 31 => .Under c
  | 32 => .Operator c
  | 33 => .OpGreaterThan
  | 34 => .OpLessThan
  | 35 => .OpAmpersand
  | 36 => .Colon
  | 37 => .BigOp c
  | 38 => .Letter c
  | 39 => .NormalLetter c
  | 40 => .Number s
  | 41 => .NumberWithDot s
  | 42 => .NumberWithComma s
  | 43 => .Function s
  | 44 => .OperatorName
  | 45 => .Slashed
  | 46 => .Not
  | 47 => .Text
  | 48 => .Mathstrut
  | 49 => .Genfrac
  | 50 => .Limits
  | 51 => .UnknownCommand s
  | _ => .EOF

/-- Decoding the encoding gives the token back. -/
theorem Token.decode_enc (t : Token) :
    Token.decode t.encIdx t.encChar t.encStr t.encDS t.encSty t.encTf = t := by
  cases t <;> rfl

instance : DecidableEq Token := fun a b =>
  decidable_of_iff (a.encIdx = b.encIdx ∧ a.encChar = b.encChar ∧
      a.encStr = b.encStr ∧ a.encDS = b.encDS ∧ a.encSty = b.encSty ∧
      a.encTf = b.encTf)
    ⟨fun ⟨h1, h2, h3, h4, h5, h6⟩ => by
      have hd := Token.decode_enc a
      rw [h1, h2, h3, h4, h5, h6, Token.decode_enc b] at hd
      exact hd.symm,
     fun h => by subst h; exact ⟨rfl, rfl, rfl, rfl, rfl, rfl⟩⟩

namespace Token

/-- `Token::acts_on_a_digit` — the four digit-grabbing command classes
(`\sqrt`, the `\frac` family, the `\binom` family, font transforms). -/
def acts_on_a_digit : Token → Bool
  | .Sqrt | .Frac _ | .Binom _ | .Transform _ => true
  | _ => false

/-- Discriminant used by `Token::is_same_kind` (compares variants while
ignoring payloads). -/
def kindId : Token → Nat
  | .EOF => 0 | .Begin => 1 | .End => 2 | .Ampersand => 3 | .NewLine => 4
  | .Left => 5 | .Right => 6 | .Middle => 7 | .Paren _ => 8
  | .SquareBracketClose => 9 | .GroupBegin => 10 | .GroupEnd => 11
  | .Frac _ => 12 | .Underscore => 13 | .Circumflex => 14 | .Prime => 15
  | .Binom _ => 16 | .Overset => 17 | .Underset => 18 | .Overbrace _ => 19
  | .Underbrace _ => 20 | .Sqrt => 21 | .Integral _ => 22 | .Lim _ => 23
  | .Space _ => 24 | .NonBreakingSpace => 25 | .Style _ => 26
  | .NormalVariant => 27 | .Transform _ => 28 | .Big _ => 29 | .Over _ => 30
  | .Under _ => 31 | .Operator _ => 32 | .OpGreaterThan => 33
  | .OpLessThan => 34 | .OpAmpersand => 35 | .Colon => 36 | .BigOp _ => 37
  | .Letter _ => 38 | .NormalLetter _ => 39 | .Number _ => 40
  | .NumberWithDot _ => 41 | .NumberWithComma _ => 42 | .Function _ => 43
  | .OperatorName => 44 | .Slashed => 45 | .Not => 46 | .Text => 47
  | .Mathstrut => 48 | .Genfrac => 49 | .Limits => 50 | .UnknownCommand _ => 51

/-- `Token::is_same_kind`: same variant, payloads ignored. -/
def is_same_kind (a b : Token) : Bool := a.kindId = b.kindId

end Token

/-! ## Errors (`error.rs` is not among the sources).
Modelled from the spec: section 7 lists the `LatexError` kinds and their
payloads; the byte offset the spec mentions is not constructed anywhere
in the given `parse.rs` and is omitted. -/

inductive LatexError
  | UnexpectedEOF
  | UnexpectedToken (expected : Token) (got : Token)
  | UnexpectedClose (got : Token)
  | UnclosedGroup (expected : Token)
  | MissingParenthesis (location : Token) (got : Token)
  | UnknownCommand (name : String)
  | UnknownEnvironment (name : String)
  | MismatchedEnvironment (expected : String) (got : String)
  | CannotBeUsedHere (got : Token) (correct_place : String)
  | ExpectedText (location : String)
deriving DecidableEq, Repr

/-! ## AST nodes (`ast.rs` node type as used by `parse.rs` and spec 3.2) -/

/-- A `NodeReference` is an index into the arena (`arena.rs`). -/
abbrev NodeRef := Nat

/-- A `StrReference` is a `(start, end)` byte range into the buffer. -/
abbrev StrReference := Nat × Nat

/-- A node list is identified by its head reference; `none` is the empty
list.  The `next` links live in the arena cells (`arena.rs`). -/
abbrev NodeList := Option NodeRef

inductive Node
  | Number (s : String)
  | SingleLetterIdent (c : Char) (variant : Option MathVariant)
  | MultiLetterIdent (s : StrReference)
  | Operator (op : Op) (attr : Option OpAttr)
  | OperatorWithSpacing (op : Op) (left : Option MathSpacing) (right : Option MathSpacing)
  | OpGreaterThan
  | OpLessThan
  | OpAmpersand
  | Space (width : String)
  | Text (s : String)
  | Subscript (base : NodeRef) (sub : NodeRef)
  | Superscript (base : NodeRef) (sup : NodeRef)
  | SubSup (target : NodeRef) (sub : NodeRef) (sup : NodeRef)
  | Multiscript (base : NodeRef) (sub : NodeRef)
  | Underset (target : NodeRef) (symbol : NodeRef)
  | Overset (target : NodeRef) (symbol : NodeRef)
  | UnderOver (target : NodeRef) (under : NodeRef) (over : NodeRef)
  | OverOp (op : Op) (accent : Accent) (target : NodeRef)
  | UnderOp (op : Op) (accent : Accent) (target : NodeRef)
  | Sqrt (content : NodeRef)
  | Root (degree : NodeRef) (content : NodeRef)
  | Frac (num : NodeRef) (den : NodeRef) (lt : Option Char) (style : Option DisplayStyle)
  | Fenced (openOp : Op) (closeOp : Op) (content : NodeRef) (style : Option Style)
  | SizedParen (size : String) (paren : Op)
  | Row (nodes : NodeList) (style : Option Style)
  | PseudoRow (nodes : NodeList)
  | Table (content : NodeList) (align : Align)
  | ColumnSeparator
  | RowSeparator
  | Slashed (content : NodeRef)
  | Mathstrut
deriving DecidableEq, Repr

/-- An arena cell: the node plus the intrusive `next` link
(`arena.rs` `NodeListElement`). -/
structure Elem where
  node : Node
  next : Option NodeRef
deriving DecidableEq, Repr

/-- Parser state: remaining input, one-token lookahead, the synthesised
string buffer, and the node arena (`parse.rs` `Parser`). -/
structure PState where
  lex : List Char
  peek : Token
  buffer : List Char
  arena : List Elem
deriving DecidableEq, Repr

end Latex2mmlc

namespace Latex2mmlc
namespace Lexer

/-! ## Lexer (`lexer.rs`) -/

/-- `Lexer::skip_whitespace` (the skipped-offset return value only
matters in text mode, which the given parser never enables). -/
def skip_whitespace (s : List Char) : List Char :=
  s.dropWhile isAsciiWhitespace

/-- `Lexer::read_command`: a run of ASCII alphabetic characters; if none
follow the backslash, exactly one character is consumed (at EOF the
command is empty). -/
def read_command : List Char → String × List Char
  | [] => ("", [])
  | c :: rest =>
    if isAsciiAlphabetic c then
      (⟨c :: rest.takeWhile isAsciiAlphabetic⟩, rest.dropWhile isAsciiAlphabetic)
    else
      (⟨[c]⟩, rest)

/-- `lexer.rs` `Punctuation`. -/
inductive Punctuation | Dot | Comma
deriving DecidableEq, Repr

/-- `Punctuation::from_char` (`.` is `ops::FULL_STOP`). -/
def punctFromChar (c : Char) : Option Punctuation :=
  if c = ops.FULL_STOP then some .Dot
  else if c = ',' then some .Comma
  else none

/-- `Lexer::read_number`.  `acc` holds the digits consumed so far (the
Rust code records them as a byte range of the input).  A punctuation
character whose successor is not a digit terminates the token: it is
consumed from the input but excluded from the number, and reported via
`NumberWithDot` / `NumberWithComma`. -/
def read_number (acc : List Char) : List Char → Token × List Char
  | [] => (.Number ⟨acc⟩, [])
  | c :: rest =>
    if isAsciiDigit c || (punctFromChar c).isSome then
      if !(isAsciiDigit ((rest.headD '\x00'))) then
        match punctFromChar c with
        | some .Dot => (.NumberWithDot ⟨acc⟩, rest)
        | some .Comma => (.NumberWithComma ⟨acc⟩, rest)
        | none => read_number (acc ++ [c]) rest
      else
        read_number (acc ++ [c]) rest
    else
      (.Number ⟨acc⟩, c :: rest)

/-- `Lexer::read_text_content`, inner loop.  `acc` is the content read
so far, `depth` the brace nesting count (starts at 1).  Only `\{` and
`\}` are allowed as escapes; running out of input (the `'\u{0}'`
sentinel) yields `none`. -/
def read_text_content_go (acc : List Char) (depth : Nat) : List Char → Option (String × List Char)
  | [] => none
  | c :: rest =>
    if c = '{' then read_text_content_go (acc ++ [c]) (depth + 1) rest
    else if c = '}' then
      if depth ≤ 1 then some (⟨acc⟩, rest)
      else read_text_content_go (acc ++ [c]) (depth - 1) rest
    else if c = '\\' then
      match rest with
      | [] => none
      | d :: rest' =>
        if d = '{' || d = '}' then read_text_content_go (acc ++ [c, d]) depth rest'
        else none
    else if c = '\x00' then none
    else read_text_content_go (acc ++ [c]) depth rest

/-- `Lexer::read_text_content`: text up to the balancing `}` (which is
consumed but excluded), honouring `\{` and `\}` escapes. -/
def read_text_content (s : List Char) : Option (String × List Char) :=
  read_text_content_go [] 1 s

/-- Command table.  `commands.rs` (`get_command`) is not among the
provided sources.  Modelled from the spec: section 4.A fixes the token
classification per command name, and `token.rs::Token::from_command`
(which is among the sources) records the concrete mapping for most of
the entries below; the remaining entries (`\genfrac`, `\not`, `\limits`,
the transform/style split) follow the spec's words.  Unknown names map
to `UnknownCommand`. -/
def get_command (cmd : String) : Token :=
  match cmd with
  | "sqrt" => .Sqrt
  | "frac" => .Frac none
  | "tfrac" => .Frac (some .False)
  | "dfrac" => .Frac (some .True)
  | "binom" => .Binom none
  | "tbinom" => .Binom (some .False)
  | "dbinom" => .Binom (some .True)
  | "genfrac" => .Genfrac
  | "not" => .Not
  | "limits" => .Limits
  | "begin" => .Begin
  | "end" => .End
  | "left" => .Left
  | "right" => .Right
  | "middle" => .Middle
  | "\\" => .NewLine
  | "text" => .Text
  | "operatorname" => .OperatorName
  | "mathstrut" => .Mathstrut
  | "slashed" => .Slashed
  | "mathrm" => .NormalVariant
  | "mathit" => .Transform .Italic
  | "textit" => .Transform .Italic
  | "mathbf" => .Transform .Bold
  | "textbf" => .Transform .Bold
  | "mathbb" => .Transform .DoubleStruck
  | "mathcal" => .Transform .Script
  | "mathscr" => .Transform .Script
  | "mathfrak" => .Transform .Fraktur
  | "mathsf" => .Transform .SansSerif
  | "texttt" => .Transform .Monospace
  | "bm" => .Transform .BoldItalic
  | "boldsymbol" => .Transform .BoldItalic
  | "displaystyle" => .Style .DisplayStyle
  | "textstyle" => .Style .TextStyle
  | "scriptstyle" => .Style .ScriptStyle
  | "scriptscriptstyle" => .Style .ScriptScriptStyle
  | "sum" => .BigOp ops.SUM
  | "prod" => .BigOp ops.PROD
  | "bigcup" => .BigOp '⋃'
  | "bigcap" => .BigOp '⋂'
  | "int" => .Integral ops.INTEGRAL
  | "oint" => .Integral '∮'
  | "lim" => .Lim "lim"
  | "limsup" => .Lim "lim sup"
  | "max" => .Lim "max"
  | "min" => .Lim "min"
  | "sin" => .Function "sin"
  | "cos" => .Function "cos"
  | "tan" => .Function "tan"
  | "log" => .Function "log"
  | "ln" => .Function "ln"
  | "exp" => .Function "exp"
  | "quad" => .Space "1"
  | "qquad" => .Space "2"
  | " " => .Space "1"
  | "," => .Space "0.1667"
  | "!" => .Space "-0.1667"
  | ":" => .Space "0.2222"
  | ";" => .Space "0.2778"
  | "langle" => .Paren '〈'
  | "rangle" => .Paren '〉'
  | "lceil" => .Paren '⌈'
  | "rceil" => .Paren '⌉'
  | "lfloor" => .Paren '⌊'
  | "rfloor" => .Paren '⌋'
  | "\x7b" => .Paren ops.LEFT_CURLY_BRACKET
  | "\x7d" => .Paren ops.RIGHT_CURLY_BRACKET
  | "|" => .Paren '‖'
  | "overset" => .Overset
  | "underset" => .Underset
  | "overbrace" => .Overbrace '⏞'
  | "underbrace" => .Underbrace '⏟'
  | "dot" => .Over '˙'
  | "hat" => .Over '^'
  | "bar" => .Over '¯'
  | "vec" => .Over '→'
  | "overline" => .Over '_'
  | "underline" => .Under '_'
  | "alpha" => .Letter 'α'
  | "beta" => .Letter 'β'
  | "gamma" => .Letter 'γ'
  | "pi" => .Letter 'π'
  | "phi" => .Letter 'ϕ'
  | "partial" => .Letter '∂'
  | "Gamma" => .NormalLetter 'Γ'
  | "Delta" => .NormalLetter 'Δ'
  | "infty" => .NormalLetter '∞'
  | "times" => .Operator ops.TIMES
  | "cdot" => .Operator '·'
  | "pm" => .Operator '±'
  | "in" => .Operator ops.ISIN
  | "ni" => .Operator ops.NI
  | "notin" => .Operator ops.NOTIN
  | "ne" => .Operator ops.NOT_EQUAL
  | "neq" => .Operator ops.NOT_EQUAL
  | "equiv" => .Operator ops.IDENTICAL_TO
  | "le" => .Operator '≤'
  | "leq" => .Operator '≤'
  | "ge" => .Operator '≥'
  | "geq" => .Operator '≥'
  | "ll" => .Operator '≪'
  | "gg" => .Operator '≫'
  | "subset" => .Operator '⊂'
  | "subseteq" => .Operator '⊆'
  | "sim" => .Operator '∼'
  | "approx" => .Operator '≈'
  | "to" => .Operator '→'
  | "gets" => .Operator '←'
  | "mapsto" => .Operator '↦'
  | "land" => .Operator '∧'
  | "lor" => .Operator '∨'
  | "forall" => .Operator ops.FORALL
  | "exists" => .Operator ops.EXISTS
  | "lt" => .OpLessThan
  | "gt" => .OpGreaterThan
  | _ => .UnknownCommand cmd

/-- `Lexer::next_token`.  Returns the token and the remaining input.
The given parser never enables text mode, so the text-mode whitespace
branch is not represented. -/
def next_token (wants_digit : Bool) (input : List Char) : Token × List Char :=
  match skip_whitespace input with
  | [] => (.EOF, [])
  | c :: rest =>
    if wants_digit && isAsciiDigit c then
      (.Number ⟨[c]⟩, rest)
    else
      if c = '=' then (.Operator ops.EQUALS_SIGN, rest)
      else if c = ';' then (.Operator ops.SEMICOLON, rest)
      else if c = ',' then (.Operator ops.COMMA, rest)
      else if c = '\'' then (.Prime, rest)
      else if c = '(' then (.Paren ops.LEFT_PARENTHESIS, rest)
      else if c = ')' then (.Paren ops.RIGHT_PARENTHESIS, rest)
      else if c = '{' then (.GroupBegin, rest)
      else if c = '}' then (.GroupEnd, rest)
      else if c = '[' then (.Paren ops.LEFT_SQUARE_BRACKET, rest)
      else if c = ']' then (.SquareBracketClose, rest)
      else if c = '|' then (.Paren ops.VERTICAL_LINE, rest)
      else if c = '+' then (.Operator ops.PLUS_SIGN, rest)
      else if c = '-' then (.Operator ops.MINUS_SIGN, rest)
      else if c = '*' then (.Operator ops.ASTERISK, rest)
      else if c = '!' then (.Operator ops.EXCLAMATION_MARK, rest)
      else if c = '<' then (.OpLessThan, rest)
      else if c = '>' then (.OpGreaterThan, rest)
      else if c = '_' then (.Underscore, rest)
      else if c = '^' then (.Circumflex, rest)
      else if c = '&' then (.Ampersand, rest)
      else if c = '~' then (.NonBreakingSpace, rest)
      else if c = '\x00' then (.EOF, rest)
      else if c = ':' then (.Colon, rest)
      else if c = ' ' then (.Letter '\xA0', rest)
      else if c = '\\' then
        let (cmd, rest') := read_command rest
        (get_command cmd, rest')
      else if isAsciiDigit c then
        read_number [c] rest
      else if isAsciiGraphic c then
        (.Letter c, rest)
      else
        (.NormalLetter c, rest)

end Lexer
end Latex2mmlc

namespace Latex2mmlc

/-! ## Text transforms (`attribute.rs` `TextTransform::transform`) -/

/-- Offset a character by a code-point delta if it lies in `lo ..= hi`
(the `transform!` macro's range clause in `attribute.rs`). -/
def trRange (c : Char) (lo hi : Char) (offset : Nat) : Option Char :=
  if lo ≤ c && c ≤ hi then some (Char.ofNat (c.toNat + offset)) else none

/-- First applicable range, then exceptions, else identity. -/
def trApply (c : Char) (ranges : List (Char × Char × Nat)) (exceptions : List (Char × Char)) : Char :=
  match ranges.findSome? (fun (lo, hi, off) => trRange c lo hi off) with
  | some r => r
  | none =>
    match exceptions.find? (fun p => p.1 = c) with
    | some p => p.2
    | none => c

/-- `TextTransform::transform` from `attribute.rs`. -/
def TextTransform.transform (tf : TextTransform) (c : Char) : Char :=
  match tf with
  | .BoldScript => trApply c [('A', 'Z', 0x1D48F), ('a', 'z', 0x1D489)] []
  | .BoldItalic =>
    trApply c
      [('A', 'Z', 0x1D427), ('a', 'z', 0x1D421), ('Α', 'Ρ', 0x1D38B),
       ('Σ', 'Ω', 0x1D38B), ('α', 'ω', 0x1D385)]
      [('ϴ', '𝜭'), ('∇', '𝜵'), ('∂', '𝝏'), ('ϵ', '𝝐'), ('ϑ', '𝝑'),
       ('ϰ', '𝝒'), ('ϕ', '𝝓'), ('ϱ', '𝝔'), ('ϖ', '𝝕')]
  | .Bold =>
    trApply c
      [('A', 'Z', 0x1D3BF), ('a', 'z', 0x1D3B9), ('Α', 'Ρ', 0x1D317),
       ('Σ', 'Ω', 0x1D317), ('α', 'ω', 0x1D311), ('Ϝ', 'ϝ', 0x1D3EE),
       ('0', '9', 0x1D79E)]
      [('ϴ', '𝚹'), ('∇', '𝛁'), ('∂', '𝛛'), ('ϵ', '𝛜'), ('ϑ', '𝛝'),
       ('ϰ', '𝛞'), ('ϕ', '𝛟'), ('ϱ', '𝛠'), ('ϖ', '𝛡')]
  | .Fraktur =>
    trApply c
      [('A', 'B', 0x1D4C3), ('D', 'G', 0x1D4C3), ('H', 'I', 0x20C4),
       ('J', 'Q', 0x1D4C3), ('S', 'Y', 0x1D4C3), ('a', 'z', 0x1D4BD)]
      [('C', 'ℭ'), ('R', 'ℜ'), ('Z', 'ℨ')]
  | .Script =>
    trApply c
      [('C', 'D', 0x1D45B), ('E', 'F', 0x20EB), ('H', 'I', 0x20C3),
       ('J', 'K', 0x1D45B), ('N', 'Q', 0x1D45B), ('S', 'Z', 0x1D45B),
       ('a', 'd', 0x1D455), ('h', 'n', 0x1D455), ('p', 'z', 0x1D455)]
      [('A', '𝒜'), ('B', 'ℬ'), ('G', '𝒢'), ('L', 'ℒ'), ('M', 'ℳ'),
       ('R', 'ℛ'), ('e', 'ℯ'), ('f', '𝒻'), ('g', 'ℊ'), ('o', 'ℴ')]
  | .Monospace =>
    trApply c [('A', 'Z', 0x1D62F), ('a', 'z', 0x1D629), ('0', '9', 0x1D7C6)] []
  | .SansSerif =>
    trApply c [('A', 'Z', 0x1D55F), ('a', 'z', 0x1D559), ('0', '9', 0x1D7B2)] []
  | .BoldFraktur => trApply c [('A', 'Z', 0x1D52B), ('a', 'z', 0x1D525)] []
  | .SansSerifBoldItalic =>
    trApply c
      [('A', 'Z', 0x1D5FB), ('a', 'z', 0x1D5F5), ('Α', 'Ρ', 0x1D3FF),
       ('Σ', 'Ω', 0x1D3FF), ('α', 'ω', 0x1D3F9)]
      [('ϴ', '𝞡'), ('∇', '𝞩'), ('∂', '𝟃'), ('ϵ', '𝟄'), ('ϑ', '𝟅'),
       ('ϰ', '𝟆'), ('ϕ', '𝟇'), ('ϱ', '𝟈'), ('ϖ', '𝟉')]
  | .SansSerifItalic => trApply c [('A', 'Z', 0x1D5C7), ('a', 'z', 0x1D5C1)] []
  | .BoldSansSerif =>
    trApply c
      [('A', 'Z', 0x1D593), ('a', 'z', 0x1D58D), ('Α', 'Ρ', 0x1D3C5),
       ('Σ', 'Ω', 0x1D3C5), ('α', 'ω', 0x1D3BF), ('0', '9', 0x1D7BC)]
      [('ϴ', '𝝧'), ('∇', '𝝯'), ('∂', '𝞉'), ('ϵ', '𝞊'), ('ϑ', '𝞋'),
       ('ϰ', '𝞌'), ('ϕ', '𝞍'), ('ϱ', '𝞎'), ('ϖ', '𝞏')]
  | .DoubleStruck =>
    trApply c
      [('A', 'B', 0x1D4F7), ('D', 'G', 0x1D4F7), ('I', 'M', 0x1D4F7),
       ('P', 'Q', 0x20C9), ('S', 'Y', 0x1D4F7), ('a', 'z', 0x1D4F1),
       ('0', '9', 0x1D7A8)]
      [('C', 'ℂ'), ('H', 'ℍ'), ('N', 'ℕ'), ('R', 'ℝ'), ('Z', 'ℤ')]
  | .Italic =>
    trApply c
      [('A', 'Z', 0x1D3F3), ('a', 'g', 0x1D3ED), ('i', 'z', 0x1D3ED),
       ('Α', 'Ρ', 0x1D351), ('Σ', 'Ω', 0x1D351), ('α', 'ω', 0x1D34B)]
      [('h', 'ℎ'), ('ı', '𝚤'), ('ȷ', '𝚥'), ('ϴ', '𝛳'), ('∇', '𝛻'),
       ('∂', '𝜕'), ('ϵ', '𝜖'), ('ϑ', '𝜗'), ('ϰ', '𝜘'), ('ϕ', '𝜙'),
       ('ϱ', '𝜚'), ('ϖ', '𝜛')]

/-- Negation lookup used by the `\not` arm.  Modelled from the spec:
`commands.rs` (`get_negated_op`) is not among the provided sources;
spec section 4.C.10 gives the canonical examples recorded here
(`<` and `>` arrive as their own token kinds and are negated directly
in `parse.rs`). -/
def get_negated_op (op : Op) : Option Op :=
  if op = ops.EQUALS_SIGN then some ops.NOT_EQUAL
  else if op = ops.ISIN then some ops.NOTIN
  else if op = ops.NI then some '∌'
  else if op = ops.IDENTICAL_TO then some '≢'
  else none

/-! ## Parser monad: explicit state passing over `PState`.
`none` models fuel exhaustion (and the undefined behaviour of an
out-of-bounds unchecked arena access); `Except.error` models `Err`. -/

abbrev PM (α : Type) := PState → Option (Except LatexError (α × PState))

def PM.pure {α : Type} (a : α) : PM α := fun s => some (.ok (a, s))

def PM.bind {α β : Type} (x : PM α) (f : α → PM β) : PM β := fun s =>
  match x s with
  | none => none
  | some (.error e) => some (.error e)
  | some (.ok (a, s')) => f a s'

instance : Monad PM where
  pure := PM.pure
  bind := PM.bind

/-- `return Err(e)` in the Rust parser. -/
def PM.throw {α : Type} (e : LatexError) : PM α := fun _ => some (.error e)

/-- Fuel exhaustion marker. -/
def PM.outOfFuel {α : Type} : PM α := fun _ => none

/-! ## State primitives -/

/-- One step of `Parser::next_token`: the new lookahead is lexed with
`wants_digit = peek_token.acts_on_a_digit()`. -/
def stepToken (s : PState) : PState :=
  let (t, lex') := Lexer.next_token s.peek.acts_on_a_digit s.lex
  { s with peek := t, lex := lex' }

/-- `Parser::next_token`: returns the previous lookahead and advances. -/
def next_token : PM Token := fun s => some (.ok (s.peek, stepToken s))

/-- Current lookahead (`self.peek_token`). -/
def peekToken : PM Token := fun s => some (.ok (s.peek, s))

/-- `Arena::push` (via `Parser::new_node_ref`): appends a cell with no
`next` link and returns its index. -/
def pushNode (n : Node) : PM NodeRef := fun s =>
  some (.ok (s.arena.length, { s with arena := s.arena ++ [⟨n, none⟩] }))

/-- `Arena::get` / `as_node`: out-of-bounds is unchecked (UB) in Rust
and is modelled as `none`. -/
def getNode (r : NodeRef) : PM Node := fun s =>
  match s.arena.get? r with
  | some e => some (.ok (e.node, s))
  | none => none

/-- Overwrite the node of a cell, preserving its `next` link
(`as_node_mut` followed by an assignment). -/
def setNodeAt (r : NodeRef) (n : Node) : PM Unit := fun s =>
  match s.arena.get? r with
  | some e => some (.ok ((), { s with arena := s.arena.set r ⟨n, e.next⟩ }))
  | none => none

/-- Read a cell's `next` link. -/
def getNextAt (r : NodeRef) : PM (Option NodeRef) := fun s =>
  match s.arena.get? r with
  | some e => some (.ok (e.next, s))
  | none => none

/-- Overwrite a cell's `next` link, preserving its node. -/
def setNextAt (r : NodeRef) (nx : Option NodeRef) : PM Unit := fun s =>
  match s.arena.get? r with
  | some e => some (.ok ((), { s with arena := s.arena.set r ⟨e.node, nx⟩ }))
  | none => none

/-- `Buffer::end` (the current length). -/
def bufEnd : PM Nat := fun s => some (.ok (s.buffer.length, s))

/-- `Buffer::push_str`. -/
def bufPushStr (str : String) : PM StrReference := fun s =>
  some (.ok ((s.buffer.length, s.buffer.length + str.data.length),
             { s with buffer := s.buffer ++ str.data }))

/-- `Buffer::extend`. -/
def bufExtend (cs : List Char) : PM StrReference := fun s =>
  some (.ok ((s.buffer.length, s.buffer.length + cs.length),
             { s with buffer := s.buffer ++ cs }))

/-- `Buffer::push` (single char). -/
def bufPush (c : Char) : PM Unit := fun s =>
  some (.ok ((), { s with buffer := s.buffer ++ [c] }))

/-! ## Node list builder (`arena.rs` `NodeList` builder operations as
used by `parse.rs`: head/tail pair, intrusive `next` links) -/

/-- A builder is `none` (empty) or a `(head, tail)` pair. -/
abbrev Builder := Option (NodeRef × NodeRef)

/-- `NodeListBuilder::push_ref`: link the previous tail to the new node. -/
def Builder.push_ref (b : Builder) (r : NodeRef) : PM Builder :=
  match b with
  | none => PM.pure (some (r, r))
  | some (h, t) => do
    setNextAt t (some r)
    PM.pure (some (h, r))

/-- `NodeListBuilder::push`: allocate, then `push_ref`. -/
def Builder.push (b : Builder) (n : Node) : PM Builder := do
  let r ← pushNode n
  b.push_ref r

/-- `NodeListBuilder::finish`. -/
def Builder.finish (b : Builder) : NodeList := b.map (·.1)

/-- `NodeListBuilder::is_empty`. -/
def Builder.is_empty (b : Builder) : Bool := b.isNone

/-- `arena.rs` `SingletonOrList`. -/
inductive SingletonOrList
  | Singleton (r : NodeRef)
  | List (l : NodeList)

/-- `NodeListBuilder::as_singleton_or_finish`. -/
def Builder.as_singleton_or_finish (b : Builder) : SingletonOrList :=
  match b with
  | none => .List none
  | some (h, t) => if h = t then .Singleton h else .List (some h)

/-- `NodeListBuilder::set_end`: terminate the chain at the tail. -/
def Builder.set_end (b : Builder) : PM Unit :=
  match b with
  | none => PM.pure ()
  | some (_, t) => setNextAt t none

/-- `Parser::squeeze`. -/
def squeeze (b : Builder) (style : Option Style) : PM NodeRef :=
  match b.as_singleton_or_finish with
  | .Singleton r => PM.pure r
  | .List l => pushNode (.Row l style)

/-- `Parser::check_lbrace`. -/
def check_lbrace : PM Unit := do
  let p ← peekToken
  if p = .GroupBegin then PM.pure ()
  else do
    let t ← next_token
    PM.throw (.UnexpectedToken .GroupBegin t)

/-- `Parser::parse_text_group`: run the lexer's text-content reader from
the current position, then discard the pending `{` lookahead by lexing
the next token. -/
def parse_text_group : PM String := fun s =>
  match Lexer.read_text_content s.lex with
  | some (content, rest) =>
    let (t, lex') := Lexer.next_token s.peek.acts_on_a_digit rest
    some (.ok (content, { s with peek := t, lex := lex' }))
  | none => some (.error (.UnclosedGroup .GroupEnd))

end Latex2mmlc

namespace Latex2mmlc

/-! ## Rust standard-library helpers used by the `\genfrac` arm -/

/-- Rust `char::is_whitespace` (Unicode White_Space). -/
def rustIsWhitespace (c : Char) : Bool :=
  ('\t' ≤ c && c ≤ '\r') || c = ' ' || c = '\u0085' || c = ' ' ||
  c = ' ' || (' ' ≤ c && c ≤ ' ') || c = ' ' ||
  c = ' ' || c = ' ' || c = ' ' || c = '　'

/-- Rust `str::trim`. -/
def rustTrim (s : String) : String :=
  ⟨((s.data.dropWhile rustIsWhitespace).reverse.dropWhile rustIsWhitespace).reverse⟩

/-- Rust `str::parse::<u8>()` (value semantics: optional `+` sign,
decimal digits, overflow above 255 is an error). -/
def parse_u8 (s : String) : Option Nat :=
  let l := if s.data.head? = some '+' then s.data.tail else s.data
  if !l.isEmpty && l.all isAsciiDigit then
    let v := l.foldl (fun acc c => acc * 10 + (c.toNat - 48)) 0
    if v ≤ 255 then some v else none
  else none

/-- End of `Parser::get_bounds`: primes (if any) are appended to the
superscript, allocating one made purely of primes when absent. -/
def finishPrimes (primes : Builder) (sub sup : Option NodeRef) :
    PM (Option NodeRef × Option NodeRef) :=
  if primes.is_empty then PM.pure (sub, sup)
  else do
    let primes ← match sup with
      | some s => primes.push_ref s
      | none => PM.pure primes
    let supRef ← squeeze primes none
    PM.pure (sub, some supRef)

/-- State of `parse.rs` `LetterCollector`. -/
structure LetterCollector where
  start : Nat
  node_ref : NodeRef
  only_one_char : Bool
deriving Repr

/-- `LetterCollector::finish`: rewrite the first letter of a merged run
into a `MultiLetterIdent` covering the whole run. -/
def collectorFinish (c : LetterCollector) : PM NodeRef := do
  let e ← bufEnd
  if !c.only_one_char then do
    setNodeAt c.node_ref (.MultiLetterIdent (c.start, e))
    PM.pure c.node_ref
  else
    PM.pure c.node_ref

/-- `Token::Colon` arm of `parse_single_node`. -/
def colon_arm : PM NodeRef := do
  let p ← peekToken
  match p with
  | .Operator op =>
    if op = ops.EQUALS_SIGN || op = ops.IDENTICAL_TO then do
      let _ ← next_token
      let b ← Builder.push none (.OperatorWithSpacing ops.COLON (some .FourMu) (some .Zero))
      let b ← b.push (.OperatorWithSpacing op (some .Zero) none)
      pushNode (.PseudoRow b.finish)
    else
      pushNode (.OperatorWithSpacing ops.COLON (some .FourMu) (some .FourMu))
  | _ => pushNode (.OperatorWithSpacing ops.COLON (some .FourMu) (some .FourMu))

/-- `Token::Middle` arm of `parse_single_node`. -/
def middle_arm : PM NodeRef := do
  let t ← next_token
  match t with
  | .Operator op => pushNode (.Operator op (some .StretchyTrue))
  | .Paren op => pushNode (.Operator op (some .StretchyTrue))
  | .SquareBracketClose => pushNode (.Operator ops.RIGHT_SQUARE_BRACKET (some .StretchyTrue))
  | tok => PM.throw (.UnexpectedToken (.Operator ops.NULL) tok)

/-- `Token::Big` arm of `parse_single_node`. -/
def big_arm (size : String) : PM NodeRef := do
  let t ← next_token
  match t with
  | .Paren paren => pushNode (.SizedParen size paren)
  | .SquareBracketClose => pushNode (.SizedParen size ops.RIGHT_SQUARE_BRACKET)
  | tok => PM.throw (.UnexpectedToken (.Paren ops.NULL) tok)

mutual

/-- The `while` loop of `Parser::parse`. -/
def parseLoop : Nat → Builder → PM Node
  | 0, _ => PM.outOfFuel
  | n + 1, b => do
    let cur ← next_token
    if cur = .EOF then PM.pure (.PseudoRow b.finish)
    else do
      let node ← parse_node n cur
      let b' ← b.push_ref node
      parseLoop n b'
termination_by structural x b => x

/-- `Parser::parse_node`: a single node plus its trailing bounds. -/
def parse_node : Nat → Token → PM NodeRef
  | 0, _ => PM.outOfFuel
  | n + 1, cur => do
    let left ← parse_single_node n cur
    let b ← get_bounds n
    match b with
    | (some sub, some sup) => pushNode (.SubSup left sub sup)
    | (some symbol, none) => pushNode (.Subscript left symbol)
    | (none, some symbol) => pushNode (.Superscript left symbol)
    | (none, none) => PM.pure left
termination_by structural x t => x

/-- `Parser::parse_token`. -/
def parse_token : Nat → PM NodeRef
  | 0 => PM.outOfFuel
  | n + 1 => do
    let t ← next_token
    parse_node n t
termination_by structural x => x

/-- `Parser::parse_single_token`. -/
def parse_single_token : Nat → PM NodeRef
  | 0 => PM.outOfFuel
  | n + 1 => do
    let t ← next_token
    parse_single_node n t
termination_by structural x => x

/-- The loop of `Parser::parse_group` (the `nodes` builder accumulates
the parsed children). -/
def parse_group_go : Nat → Token → Builder → PM Builder
  | 0, _, _ => PM.outOfFuel
  | n + 1, endT, nodes => do
    let p ← peekToken
    if p.is_same_kind endT then PM.pure nodes
    else do
      let t ← next_token
      if t = .EOF then PM.throw (.UnclosedGroup endT)
      else do
        let node ← parse_node n t
        let nodes' ← nodes.push_ref node
        parse_group_go n endT nodes'
termination_by structural x t b => x

/-- `Parser::parse_table`. -/
def parse_table : Nat → Align → PM Node
  | 0, _ => PM.outOfFuel
  | n + 1, align => do
    let content ← parse_group_go n .End none
    let _ ← next_token
    PM.pure (.Table content.finish align)
termination_by structural x a => x

/-- `Parser::get_bounds`, including its leading prime-collecting loop
(`primes` is the builder of collected prime operators). -/
def get_bounds_go : Nat → Builder → PM (Option NodeRef × Option NodeRef)
  | 0, _ => PM.outOfFuel
  | n + 1, primes => do
    let p ← peekToken
    if p = .Prime then do
      let _ ← next_token
      let primes' ← primes.push (.Operator ops.PRIME none)
      get_bounds_go n primes'
    else do
      let firstU := p = .Underscore
      let firstC := p = .Circumflex
      if firstU || firstC then do
        let first_bound ← get_sub_or_sub n
        let q ← peekToken
        let secondU := q = .Underscore
        let secondC := q = .Circumflex
        if (!firstU && secondC) || (firstU && secondU) then do
          let t ← next_token
          PM.throw (.CannotBeUsedHere t "after an identifier or operator")
        else if (firstU && secondC) || (!firstU && secondU) then do
          let second_bound ← get_sub_or_sub n
          if firstU then finishPrimes primes (some first_bound) (some second_bound)
          else finishPrimes primes (some second_bound) (some first_bound)
        else if firstU then finishPrimes primes (some first_bound) none
        else finishPrimes primes none (some first_bound)
      else
        finishPrimes primes none none
termination_by structural x b => x

/-- `Parser::get_bounds` entry point. -/
def get_bounds : Nat → PM (Option NodeRef × Option NodeRef)
  | 0 => PM.outOfFuel
  | n + 1 => get_bounds_go n none
termination_by structural x => x

/-- `Parser::get_sub_or_sub`: the node after a `_` or `^`. -/
def get_sub_or_sub : Nat → PM NodeRef
  | 0 => PM.outOfFuel
  | n + 1 => do
    let _ ← next_token
    let t ← next_token
    if t = .Underscore || t = .Circumflex || t = .Prime then
      PM.throw (.CannotBeUsedHere t "after an identifier or operator")
    else
      parse_single_node n t
termination_by structural x => x

/-- `Parser::set_normal_variant`. -/
def set_normal_variant : Nat → NodeRef → PM Unit
  | 0, _ => PM.outOfFuel
  | n + 1, r => do
    let nd ← getNode r
    match nd with
    | .SingleLetterIdent c _ => setNodeAt r (.SingleLetterIdent c (some .Normal))
    | .Row list _ => snvList n list
    | _ => PM.pure ()
termination_by structural x r => x

/-- Iteration of `set_normal_variant` over a node list. -/
def snvList : Nat → Option NodeRef → PM Unit
  | 0, _ => PM.outOfFuel
  | _ + 1, none => PM.pure ()
  | n + 1, some cur => do
    let nx ← getNextAt cur
    set_normal_variant n cur
    snvList n nx
termination_by structural x r => x

/-- `Parser::transform_letters`. -/
def transform_letters : Nat → NodeRef → TextTransform → PM Unit
  | 0, _, _ => PM.outOfFuel
  | n + 1, r, tf => do
    let nd ← getNode r
    match nd with
    | .SingleLetterIdent x v => setNodeAt r (.SingleLetterIdent (tf.transform x) v)
    | .Operator op _ => setNodeAt r (.SingleLetterIdent (tf.transform op) none)
    | .Row list _ => tfList n list tf
    | _ => PM.pure ()
termination_by structural x r t => x

/-- Iteration of `transform_letters` over a node list. -/
def tfList : Nat → Option NodeRef → TextTransform → PM Unit
  | 0, _, _ => PM.outOfFuel
  | _ + 1, none, _ => PM.pure ()
  | n + 1, some cur, tf => do
    let nx ← getNextAt cur
    transform_letters n cur tf
    tfList n nx tf
termination_by structural x r t => x

/-- The iteration of `Parser::merge_single_letters`: `lb` is the new
list builder, `coll` the current letter run. -/
def msl_go : Nat → Option NodeRef → Builder → Option LetterCollector → PM Builder
  | 0, _, _, _ => PM.outOfFuel
  | _ + 1, none, lb, coll =>
    (match coll with
     | some col => do
       let r ← collectorFinish col
       lb.push_ref r
     | none => PM.pure lb)
  | n + 1, some cur, lb, coll => do
    let nx ← getNextAt cur
    let nd ← getNode cur
    match nd with
    | .SingleLetterIdent c _ => do
      let coll' ← (match coll with
        | some col => PM.pure (some { col with only_one_char := false })
        | none => do
          let st ← bufEnd
          PM.pure (some (LetterCollector.mk st cur true)))
      bufPush c
      msl_go n nx lb coll'
    | _ => do
      let lb ← (match coll with
        | some col => do
          let r ← collectorFinish col
          lb.push_ref r
        | none => PM.pure lb)
      let lb ← lb.push_ref cur
      msl_go n nx lb none
termination_by structural x r b c => x

/-- `Parser::merge_single_letters`. -/
def merge_single_letters : Nat → Option NodeRef → Option Style → PM NodeRef
  | 0, _, _ => PM.outOfFuel
  | n + 1, nodes, style => do
    let lb ← msl_go n nodes none none
    lb.set_end
    squeeze lb style

/-- `parse.rs` free function `extract_letters`. -/
def extract_letters : Nat → Node → PM Unit
  | 0, _ => PM.outOfFuel
  | n + 1, nd =>
    match nd with
    | .SingleLetterIdent c _ => bufPush c
    | .Row nodes _ => elList n nodes
    | .Number s => do
      let _ ← bufPushStr s
      PM.pure ()
    | .Operator op _ => bufPush op
    | .OperatorWithSpacing op _ _ => bufPush op
    | _ => PM.throw (.ExpectedText "\\operatorname")
termination_by structural x d => x

/-- Iteration of `extract_letters` over a node list. -/
def elList : Nat → Option NodeRef → PM Unit
  | 0, _ => PM.outOfFuel
  | _ + 1, none => PM.pure ()
  | n + 1, some cur => do
    let nx ← getNextAt cur
    let nd ← getNode cur
    extract_letters n nd
    elList n nx
termination_by structural x r => x

/-- `Token::BigOp` arm of `parse_single_node`. -/
def bigop_arm : Nat → Op → PM NodeRef
  | 0, _ => PM.outOfFuel
  | n + 1, op => do
  let p ← peekToken
  let target ← (if p = .Limits then do
      let _ ← next_token
      pushNode (.Operator op (some .NoMovableLimits))
    else
      pushNode (.Operator op none))
  let b ← get_bounds n
  match b with
  | (some under, some over) => pushNode (.UnderOver target under over)
  | (some symbol, none) => pushNode (.Underset target symbol)
  | (none, some symbol) => pushNode (.Overset target symbol)
  | (none, none) => pushNode (.Operator op none)
termination_by structural x o => x

/-- `Token::Sqrt` arm of `parse_single_node`. -/
def sqrt_arm : Nat → PM NodeRef
  | 0 => PM.outOfFuel
  | n + 1 => do
  let t ← next_token
  if t = .Paren ops.LEFT_SQUARE_BRACKET then do
    let degree ← parse_group_go n .SquareBracketClose none
    let _ ← next_token
    let content ← parse_token n
    let d ← squeeze degree none
    pushNode (.Root d content)
  else do
    let content ← parse_node n t
    pushNode (.Sqrt content)
termination_by structural x => x

/-- `Token::Frac` arm of `parse_single_node`. -/
def frac_arm : Nat → Option DisplayStyle → PM NodeRef
  | 0, _ => PM.outOfFuel
  | n + 1, displaystyle => do
  let numerator ← parse_token n
  let denominator ← parse_token n
  pushNode (.Frac numerator denominator none displaystyle)
termination_by structural x d => x

/-- `Token::Binom` arm of `parse_single_node`. -/
def binom_arm : Nat → Option DisplayStyle → PM NodeRef
  | 0, _ => PM.outOfFuel
  | n + 1, displaystyle => do
  let numerator ← parse_token n
  let denominator ← parse_token n
  let inner ← pushNode (.Frac numerator denominator (some '0') displaystyle)
  pushNode (.Fenced ops.LEFT_PARENTHESIS ops.RIGHT_PARENTHESIS inner none)
termination_by structural x d => x

/-- `Token::Genfrac` arm of `parse_single_node`. -/
def genfrac_arm : Nat → PM NodeRef
  | 0 => PM.outOfFuel
  | n + 1 => do
  let r1 ← parse_token n
  let nd1 ← getNode r1
  let openOp ← (match nd1 with
    | .Operator op _ => PM.pure op
    | .Row l _ => if l.isNone then PM.pure ops.NULL else PM.throw .UnexpectedEOF
    | _ => PM.throw .UnexpectedEOF)
  let r2 ← parse_token n
  let nd2 ← getNode r2
  let closeOp ← (match nd2 with
    | .Operator op _ => PM.pure op
    | .Row l _ => if l.isNone then PM.pure ops.NULL else PM.throw .UnexpectedEOF
    | _ => PM.throw .UnexpectedEOF)
  check_lbrace
  let thick ← parse_text_group
  let line_thickness ← (if rustTrim thick = "" then PM.pure (none : Option Char)
    else if rustTrim thick = "0pt" then PM.pure (some '0')
    else PM.throw .UnexpectedEOF)
  let r3 ← parse_token n
  let nd3 ← getNode r3
  let style ← (match nd3 with
    | .Number num =>
      (match parse_u8 num with
       | some 0 => PM.pure (some Style.DisplayStyle)
       | some 1 => PM.pure (some Style.TextStyle)
       | some 2 => PM.pure (some Style.ScriptStyle)
       | some 3 => PM.pure (some Style.ScriptScriptStyle)
       | _ => PM.throw .UnexpectedEOF)
    | .Row l _ => if l.isNone then PM.pure (none : Option Style) else PM.throw .UnexpectedEOF
    | _ => PM.throw .UnexpectedEOF)
  let numerator ← parse_token n
  let denominator ← parse_token n
  let content ← pushNode (.Frac numerator denominator line_thickness none)
  pushNode (.Fenced openOp closeOp content style)
termination_by structural x => x

/-- `Token::Overbrace`/`Token::Underbrace` arms of `parse_single_node`
(`is_over` distinguishes them). -/
def brace_arm : Nat → Op → Bool → PM NodeRef
  | 0, _, _ => PM.outOfFuel
  | n + 1, x, is_over => do
  let target ← parse_single_token n
  let p ← peekToken
  if (is_over && p = .Circumflex) || (!is_over && p = .Underscore) then do
    let _ ← next_token
    let expl ← parse_single_token n
    let op ← pushNode (.Operator x none)
    if is_over then do
      let symbol ← pushNode (.Overset op expl)
      pushNode (.Overset target symbol)
    else do
      let symbol ← pushNode (.Underset op expl)
      pushNode (.Underset target symbol)
  else do
    let symbol ← pushNode (.Operator x none)
    if is_over then pushNode (.Overset target symbol)
    else pushNode (.Underset target symbol)

termination_by structural x o b => x

/-- `Token::Lim` arm of `parse_single_node`. -/
def lim_arm : Nat → String → PM NodeRef
  | 0, _ => PM.outOfFuel
  | n + 1, lim => do
  let sr ← bufPushStr lim
  let p ← peekToken
  if p = .Underscore then do
    let _ ← next_token
    let under ← parse_single_token n
    let target ← pushNode (.MultiLetterIdent sr)
    pushNode (.Underset target under)
  else
    pushNode (.MultiLetterIdent sr)
termination_by structural x l => x

/-- `Token::Not` arm of `parse_single_node`. -/
def not_arm : Nat → PM NodeRef
  | 0 => PM.outOfFuel
  | n + 1 => do
  let p ← peekToken
  match p with
  | .Operator op => do
    let _ ← next_token
    match get_negated_op op with
    | some negated => pushNode (.Operator negated none)
    | none => pushNode (.Operator op none)
  | .OpLessThan => do
    let _ ← next_token
    pushNode (.Operator ops.NOT_LESS_THAN none)
  | .OpGreaterThan => do
    let _ ← next_token
    pushNode (.Operator ops.NOT_GREATER_THAN none)
  | .Letter c => do
    let _ ← next_token
    let sr ← bufExtend [c, '\u0338']
    pushNode (.MultiLetterIdent sr)
  | .NormalLetter c => do
    let _ ← next_token
    let sr ← bufExtend [c, '\u0338']
    pushNode (.MultiLetterIdent sr)
  | _ => PM.throw (.CannotBeUsedHere .Not "before supported operators")

/-- `Token::NormalVariant` arm of `parse_single_node`. -/
def normal_variant_arm : Nat → PM NodeRef
  | 0 => PM.outOfFuel
  | n + 1 => do
  let node_ref ← parse_single_token n
  let nd ← getNode node_ref
  let node_ref ← (match nd with
    | .Row nodes style => merge_single_letters n nodes style
    | _ => PM.pure node_ref)
  set_normal_variant n node_ref
  PM.pure node_ref
termination_by structural x => x

/-- `Token::Transform` arm of `parse_single_node`. -/
def transform_arm : Nat → TextTransform → PM NodeRef
  | 0, _ => PM.outOfFuel
  | n + 1, tf => do
  let node_ref ← parse_single_token n
  transform_letters n node_ref tf
  let nd ← getNode node_ref
  (match nd with
   | .Row nodes style => merge_single_letters n nodes style
   | _ => PM.pure node_ref)
termination_by structural x t => x

/-- `Token::Integral` arm of `parse_single_node`. -/
def integral_arm : Nat → Op → PM NodeRef
  | 0, _ => PM.outOfFuel
  | n + 1, int => do
  let p ← peekToken
  if p = .Limits then do
    let _ ← next_token
    let target ← pushNode (.Operator int none)
    let b ← get_bounds n
    match b with
    | (some under, some over) => pushNode (.UnderOver target under over)
    | (some symbol, none) => pushNode (.Underset target symbol)
    | (none, some symbol) => pushNode (.Overset target symbol)
    | (none, none) => pushNode (.Operator int none)
  else do
    let target ← pushNode (.Operator int none)
    let b ← get_bounds n
    match b with
    | (some sub, some sup) => pushNode (.SubSup target sub sup)
    | (some symbol, none) => pushNode (.Subscript target symbol)
    | (none, some symbol) => pushNode (.Superscript target symbol)
    | (none, none) => pushNode (.Operator int none)

termination_by structural x o => x

/-- `Token::Left` arm of `parse_single_node`. -/
def left_arm : Nat → PM NodeRef
  | 0 => PM.outOfFuel
  | n + 1 => do
  let t ← next_token
  let openOp ← (match t with
    | .Paren o => PM.pure o
    | .SquareBracketClose => PM.pure ops.RIGHT_SQUARE_BRACKET
    | .Operator op =>
      if op = ops.FULL_STOP then PM.pure ops.NULL
      else PM.throw (.MissingParenthesis .Left (.Operator op))
    | tok => PM.throw (.MissingParenthesis .Left tok))
  let content ← parse_group_go n .Right none
  let _ ← next_token
  let t2 ← next_token
  let closeOp ← (match t2 with
    | .Paren o => PM.pure o
    | .SquareBracketClose => PM.pure ops.RIGHT_SQUARE_BRACKET
    | .Operator op =>
      if op = ops.FULL_STOP then PM.pure ops.NULL
      else PM.throw (.MissingParenthesis .Right (.Operator op))
    | tok => PM.throw (.MissingParenthesis .Right tok))
  let sq ← squeeze content none
  pushNode (.Fenced openOp closeOp sq none)

termination_by structural x => x

/-- `Token::Begin` arm of `parse_single_node`. -/
def begin_arm : Nat → PM NodeRef
  | 0 => PM.outOfFuel
  | n + 1 => do
  check_lbrace
  let environment ← parse_text_group
  let node ← (
    if environment = "align" || environment = "align*" || environment = "aligned" then
      parse_table n .Alternating
    else if environment = "cases" then do
      let content ← parse_table n .Left
      let cref ← pushNode content
      PM.pure (Node.Fenced ops.LEFT_CURLY_BRACKET ops.NULL cref none)
    else if environment = "matrix" then
      parse_table n .Center
    else if environment = "pmatrix" || environment = "bmatrix" || environment = "vmatrix" then do
      let content ← parse_table n .Center
      let oc :=
        if environment = "pmatrix" then (ops.LEFT_PARENTHESIS, ops.RIGHT_PARENTHESIS)
        else if environment = "bmatrix" then (ops.LEFT_SQUARE_BRACKET, ops.RIGHT_SQUARE_BRACKET)
        else (ops.VERTICAL_LINE, ops.VERTICAL_LINE)
      let cref ← pushNode content
      PM.pure (Node.Fenced oc.1 oc.2 cref none)
    else
      PM.throw (.UnknownEnvironment environment))
  check_lbrace
  let end_name ← parse_text_group
  if end_name ≠ environment then
    PM.throw (.MismatchedEnvironment environment end_name)
  else
    pushNode node
termination_by structural x => x

/-- `Token::OperatorName` arm of `parse_single_node`. -/
def operatorname_arm : Nat → PM NodeRef
  | 0 => PM.outOfFuel
  | n + 1 => do
  let r ← parse_single_token n
  let nd ← getNode r
  let start ← bufEnd
  extract_letters n nd
  let stop ← bufEnd
  pushNode (.MultiLetterIdent (start, stop))
termination_by structural x => x

/-- `Parser::parse_single_node`.  The common trailing
`Ok(self.new_node_ref(node))` of the Rust function is inlined as the
final `pushNode` of each arm, and the larger arms are factored into the
named `…_arm` functions above, in source order. -/
def parse_single_node : Nat → Token → PM NodeRef
  | 0, _ => PM.outOfFuel
  | n + 1, cur =>
    match cur with
    | .Number number => pushNode (.Number number)
    | .NumberWithDot number => do
      let b ← Builder.push none (.Number number)
      let b ← b.push (.Operator ops.FULL_STOP none)
      pushNode (.PseudoRow b.finish)
    | .NumberWithComma number => do
      let b ← Builder.push none (.Number number)
      let b ← b.push (.Operator ops.COMMA none)
      pushNode (.PseudoRow b.finish)
    | .Letter x => pushNode (.SingleLetterIdent x none)
    | .NormalLetter x => pushNode (.SingleLetterIdent x (some .Normal))
    | .Operator op => pushNode (.Operator op none)
    | .OpGreaterThan => pushNode .OpGreaterThan
    | .OpLessThan => pushNode .OpLessThan
    | .OpAmpersand => pushNode .OpAmpersand
    | .Function f => do
      let sr ← bufPushStr f
      pushNode (.MultiLetterIdent sr)
    | .Space space => pushNode (.Space space)
    | .NonBreakingSpace => pushNode (.Text "\u00A0")
    | .Sqrt => sqrt_arm n
    | .Frac displaystyle => frac_arm n displaystyle
    | .Binom displaystyle => binom_arm n displaystyle
    | .Genfrac => genfrac_arm n
    | .Over op => do
      let target ← parse_token n
      pushNode (.OverOp op .True target)
    | .Under op => do
      let target ← parse_token n
      pushNode (.UnderOp op .True target)
    | .Overset => do
      let symbol ← parse_token n
      let target ← parse_token n
      pushNode (.Overset target symbol)
    | .Underset => do
      let symbol ← parse_token n
      let target ← parse_token n
      pushNode (.Underset target symbol)
    | .Overbrace x => brace_arm n x true
    | .Underbrace x => brace_arm n x false
    | .BigOp op => bigop_arm n op
    | .Lim lim => lim_arm n lim
    | .Slashed => do
      let _ ← next_token
      let node ← parse_token n
      let _ ← next_token
      pushNode (.Slashed node)
    | .Not => not_arm n
    | .NormalVariant => normal_variant_arm n
    | .Transform tf => transform_arm n tf
    | .Integral int => integral_arm n int
    | .Colon => colon_arm
    | .GroupBegin => do
      let content ← parse_group_go n .GroupEnd none
      let _ ← next_token
      squeeze content none
    | .Paren paren => pushNode (.Operator paren (some .StretchyFalse))
    | .SquareBracketClose =>
      pushNode (.Operator ops.RIGHT_SQUARE_BRACKET (some .StretchyFalse))
    | .Left => left_arm n
    | .Middle => middle_arm
    | .Big size => big_arm size
    | .Begin => begin_arm n
    | .OperatorName => operatorname_arm n
    | .Text => do
      check_lbrace
      let text ← parse_text_group
      pushNode (.Text text)
    | .Ampersand => pushNode .ColumnSeparator
    | .NewLine => pushNode .RowSeparator
    | .Mathstrut => pushNode .Mathstrut
    | .Style style => do
      let g ← parse_group_go n .GroupEnd none
      pushNode (.Row g.finish (some style))
    | .UnknownCommand name => PM.throw (.UnknownCommand name)
    | .Circumflex => PM.throw (.CannotBeUsedHere .Circumflex "after an identifier or operator")
    | .Prime => PM.throw (.CannotBeUsedHere .Prime "after an identifier or operator")
    | .Underscore => do
      let sub ← parse_single_token n
      let base ← parse_single_token n
      pushNode (.Multiscript base sub)
    | .Limits => PM.throw (.CannotBeUsedHere .Limits "after \\int, \\sum, ...")
    | .EOF => PM.throw .UnexpectedEOF
    | .End => PM.throw (.UnexpectedClose .End)
    | .Right => PM.throw (.UnexpectedClose .Right)
    | .GroupEnd => PM.throw (.UnexpectedClose .GroupEnd)
termination_by structural x t => x
end

/-- `Parser::parse_group` (wrapper around its loop). -/
def parse_group (n : Nat) (endT : Token) : PM Builder := parse_group_go n endT none

/-- `Parser::new`: prime the lookahead with the first real token. -/
def Parser.new (input : List Char) : PState :=
  stepToken { lex := input, peek := .EOF, buffer := [], arena := [] }

/-- `Parser::parse`. -/
def parse (fuel : Nat) : PM Node := parseLoop fuel none

/-- `get_nodes` from `lib.rs`: lexer + parser over a fresh arena and
buffer; returns the root node together with the final parser state. -/
def latexToAst (fuel : Nat) (input : List Char) : Option (Except LatexError (Node × PState)) :=
  parse fuel (Parser.new input)

end Latex2mmlc

namespace Latex2mmlc

/-! ## Resolved ASTs.  Arena-based ASTs are compared after resolving
`NodeRef` indices into trees and `StrReference` ranges into strings, so
that two parses agree exactly when they produce the same abstract tree
(the arena allocation order is immaterial). -/

inductive Tree
  | Number (s : String)
  | SingleLetterIdent (c : Char) (variant : Option MathVariant)
  | MultiLetterIdent (s : String)
  | Operator (op : Op) (attr : Option OpAttr)
  | OperatorWithSpacing (op : Op) (left : Option MathSpacing) (right : Option MathSpacing)
  | OpGreaterThan
  | OpLessThan
  | OpAmpersand
  | Space (width : String)
  | Text (s : String)
  | Subscript (base : Tree) (sub : Tree)
  | Superscript (base : Tree) (sup : Tree)
  | SubSup (target : Tree) (sub : Tree) (sup : Tree)
  | Multiscript (base : Tree) (sub : Tree)
  | Underset (target : Tree) (symbol : Tree)
  | Overset (target : Tree) (symbol : Tree)
  | UnderOver (target : Tree) (under : Tree) (over : Tree)
  | OverOp (op : Op) (accent : Accent) (target : Tree)
  | UnderOp (op : Op) (accent : Accent) (target : Tree)
  | Sqrt (content : Tree)
  | Root (degree : Tree) (content : Tree)
  | Frac (num : Tree) (den : Tree) (lt : Option Char) (style : Option DisplayStyle)
  | Fenced (openOp : Op) (closeOp : Op) (content : Tree) (style : Option Style)
  | SizedParen (size : String) (paren : Op)
  | Row (nodes : List Tree) (style : Option Style)
  | PseudoRow (nodes : List Tree)
  | Table (content : List Tree) (align : Align)
  | ColumnSeparator
  | RowSeparator
  | Slashed (content : Tree)
  | Mathstrut
deriving Repr

/-- The buffer substring denoted by a `StrReference`. -/
def bufSlice (st : PState) (r : StrReference) : String :=
  ⟨(st.buffer.drop r.1).take (r.2 - r.1)⟩

mutual

/-- Resolve an arena node into a tree (fuelled; `none` on dangling
references or exhausted fuel). -/
def resolveNode : Nat → PState → Node → Option Tree
  | 0, _, _ => none
  | n + 1, st, nd =>
    match nd with
    | .Number s => some (.Number s)
    | .SingleLetterIdent c v => some (.SingleLetterIdent c v)
    | .MultiLetterIdent r => some (.MultiLetterIdent (bufSlice st r))
    | .Operator op a => some (.Operator op a)
    | .OperatorWithSpacing op l r => some (.OperatorWithSpacing op l r)
    | .OpGreaterThan => some .OpGreaterThan
    | .OpLessThan => some .OpLessThan
    | .OpAmpersand => some .OpAmpersand
    | .Space w => some (.Space w)
    | .Text s => some (.Text s)
    | .Subscript a b => do some (.Subscript (← resolveRef n st a) (← resolveRef n st b))
    | .Superscript a b => do some (.Superscript (← resolveRef n st a) (← resolveRef n st b))
    | .SubSup a b c =>
      do some (.SubSup (← resolveRef n st a) (← resolveRef n st b) (← resolveRef n st c))
    | .Multiscript a b => do some (.Multiscript (← resolveRef n st a) (← resolveRef n st b))
    | .Underset a b => do some (.Underset (← resolveRef n st a) (← resolveRef n st b))
    | .Overset a b => do some (.Overset (← resolveRef n st a) (← resolveRef n st b))
    | .UnderOver a b c =>
      do some (.UnderOver (← resolveRef n st a) (← resolveRef n st b) (← resolveRef n st c))
    | .OverOp op acc t => do some (.OverOp op acc (← resolveRef n st t))
    | .UnderOp op acc t => do some (.UnderOp op acc (← resolveRef n st t))
    | .Sqrt t => do some (.Sqrt (← resolveRef n st t))
    | .Root a b => do some (.Root (← resolveRef n st a) (← resolveRef n st b))
    | .Frac a b lt sty => do some (.Frac (← resolveRef n st a) (← resolveRef n st b) lt sty)
    | .Fenced o c t sty => do some (.Fenced o c (← resolveRef n st t) sty)
    | .SizedParen sz p => some (.SizedParen sz p)
    | .Row l sty => do some (.Row (← resolveList n st l) sty)
    | .PseudoRow l => do some (.PseudoRow (← resolveList n st l))
    | .Table l al => do some (.Table (← resolveList n st l) al)
    | .ColumnSeparator => some .ColumnSeparator
    | .RowSeparator => some .RowSeparator
    | .Slashed t => do some (.Slashed (← resolveRef n st t))
    | .Mathstrut => some .Mathstrut

/-- Resolve a node reference. -/
def resolveRef : Nat → PState → NodeRef → Option Tree
  | 0, _, _ => none
  | n + 1, st, r =>
    match st.arena.get? r with
    | some e => resolveNode n st e.node
    | none => none

/-- Resolve an intrusive node list. -/
def resolveList : Nat → PState → Option NodeRef → Option (List Tree)
  | 0, _, _ => none
  | _ + 1, _, none => some []
  | n + 1, st, some r =>
    match st.arena.get? r with
    | some e => do
      let t ← resolveNode n st e.node
      let rest ← resolveList n st e.next
      some (t :: rest)
    | none => none

end

/-- Parse and resolve: the abstract syntax tree of an input. -/
def latexToTree (fuel : Nat) (input : List Char) : Option (Except LatexError Tree) :=
  match latexToAst fuel input with
  | none => none
  | some (.error e) => some (.error e)
  | some (.ok (root, st)) =>
    match resolveNode fuel st root with
    | some t => some (.ok t)
    | none => none

/-! ## Emitter and public API (`lib.rs`).  The Rust emitter lives in
`ast.rs`, which is not among the provided sources. -/

/-- `lib.rs` `Display`. -/
inductive Display | Block | Inline
deriving DecidableEq, Repr

/-- Escaping for `<`, `>`, `&` in operator output.  Modelled from the
spec: section 4.D requires these to be written as XML entities. -/
def escapeOp (c : Char) : String :=
  if c = '<' then "&lt;" else if c = '>' then "&gt;"
  else if c = '&' then "&amp;" else ⟨[c]⟩

mutual

/-- Serialiser for resolved trees.  Modelled from the spec: the emitter
of `ast.rs` is not among the sources; section 4.D / 6.3 fix the MathML
element per node variant, and the exact pretty-printing whitespace is an
implementation choice (this one indents nothing and writes children
in sequence). -/
def emitTree : Nat → Tree → Option String
  | 0, _ => none
  | n + 1, t =>
    match t with
    | .Number s => some ("<mn>" ++ s ++ "</mn>")
    | .SingleLetterIdent c v =>
      some ((if v.isSome then "<mi mathvariant=\"normal\">" else "<mi>") ++ ⟨[c]⟩ ++ "</mi>")
    | .MultiLetterIdent s => some ("<mi>" ++ s ++ "</mi>")
    | .Operator op _ => some ("<mo>" ++ escapeOp op ++ "</mo>")
    | .OperatorWithSpacing op _ _ => some ("<mo>" ++ escapeOp op ++ "</mo>")
    | .OpGreaterThan => some "<mo>&gt;</mo>"
    | .OpLessThan => some "<mo>&lt;</mo>"
    | .OpAmpersand => some "<mo>&amp;</mo>"
    | .Space w => some ("<mspace width=\"" ++ w ++ "em\"/>")
    | .Text s => some ("<mtext>" ++ s ++ "</mtext>")
    | .Subscript a b => do some ("<msub>" ++ (← emitTree n a) ++ (← emitTree n b) ++ "</msub>")
    | .Superscript a b => do some ("<msup>" ++ (← emitTree n a) ++ (← emitTree n b) ++ "</msup>")
    | .SubSup a b c => do
      some ("<msubsup>" ++ (← emitTree n a) ++ (← emitTree n b) ++ (← emitTree n c) ++ "</msubsup>")
    | .Multiscript a b => do
      some ("<mmultiscripts>" ++ (← emitTree n a) ++ "<mprescripts/>" ++ (← emitTree n b) ++
            "<mrow></mrow></mmultiscripts>")
    | .Underset a b => do some ("<munder>" ++ (← emitTree n a) ++ (← emitTree n b) ++ "</munder>")
    | .Overset a b => do some ("<mover>" ++ (← emitTree n a) ++ (← emitTree n b) ++ "</mover>")
    | .UnderOver a b c => do
      some ("<munderover>" ++ (← emitTree n a) ++ (← emitTree n b) ++ (← emitTree n c) ++
            "</munderover>")
    | .OverOp op _ t => do
      some ("<mover accent=\"true\">" ++ (← emitTree n t) ++ "<mo>" ++ escapeOp op ++ "</mo></mover>")
    | .UnderOp op _ t => do
      some ("<munder accent=\"true\">" ++ (← emitTree n t) ++ "<mo>" ++ escapeOp op ++
            "</mo></munder>")
    | .Sqrt t => do some ("<msqrt>" ++ (← emitTree n t) ++ "</msqrt>")
    | .Root a b => do some ("<mroot>" ++ (← emitTree n b) ++ (← emitTree n a) ++ "</mroot>")
    | .Frac a b _ _ => do some ("<mfrac>" ++ (← emitTree n a) ++ (← emitTree n b) ++ "</mfrac>")
    | .Fenced o c t _ => do
      some ("<mrow>" ++ (if o = ops.NULL then "" else "<mo>" ++ escapeOp o ++ "</mo>") ++
            (← emitTree n t) ++
            (if c = ops.NULL then "" else "<mo>" ++ escapeOp c ++ "</mo>") ++ "</mrow>")
    | .SizedParen sz p => some ("<mo maxsize=\"" ++ sz ++ "\">" ++ escapeOp p ++ "</mo>")
    | .Row l _ => do some ("<mrow>" ++ (← emitTrees n l) ++ "</mrow>")
    | .PseudoRow l => do some (← emitTrees n l)
    | .Table l _ => do some ("<mtable>" ++ (← emitTrees n l) ++ "</mtable>")
    | .ColumnSeparator => some "<mtd/>"
    | .RowSeparator => some "<mtr/>"
    | .Slashed t => do some ("<menclose notation=\"updiagonalstrike\">" ++ (← emitTree n t) ++
                             "</menclose>")
    | .Mathstrut => some "<mpadded height=\"0.7em\" depth=\"0.3em\"></mpadded>"

/-- Serialise a list of children in sequence. -/
def emitTrees : Nat → List Tree → Option String
  | 0, _ => none
  | _ + 1, [] => some ""
  | n + 1, t :: ts => do some ((← emitTree n t) ++ (← emitTrees n ts))

end

/-- `lib.rs` `latex_to_mathml`: parse with a fresh arena and buffer,
then serialise between `<math>` tags. -/
def latex_to_mathml (fuel : Nat) (latex : List Char) (display : Display) (pretty : Bool) :
    Option (Except LatexError String) :=
  match latexToAst fuel latex with
  | none => none
  | some (.error e) => some (.error e)
  | some (.ok (root, st)) =>
    match resolveNode fuel st root with
    | none => none
    | some tree =>
      match emitTree fuel tree with
      | none => none
      | some body =>
        let headStr : String := match display with
          | .Block => "<math display=\"block\">"
          | .Inline => "<math>"
        some (.ok (headStr ++ body ++ (if pretty then "\n" else "") ++ "</math>"))

end Latex2mmlc

namespace Latex2mmlc

/-! ## Lexer dispatch lemmas -/

/-- An ASCII digit is one of the ten digit characters. -/
theorem digit_cases {c : Char} (h : isAsciiDigit c = true) :
    c ∈ ['0', '1', '2', '3', '4', '5', '6', '7', '8', '9'] := by
  simp [isAsciiDigit, Char.le_def] at h
  obtain ⟨h1, h2⟩ := h
  have hv1 : 48 ≤ c.toNat := by exact_mod_cast h1
  have hv2 : c.toNat ≤ 57 := by exact_mod_cast h2
  have hc : Char.ofNat c.toNat = c := Char.ofNat_toNat c
  interval_cases h : c.toNat <;> (subst hc; decide)

/-- Dispatch of `Lexer::next_token` on a digit: the one-character grab
when `wants_digit` is set, `read_number` otherwise. -/
theorem lex_digit {c : Char} (h : isAsciiDigit c = true) (w : Bool) (rest : List Char) :
    Lexer.next_token w (c :: rest) =
      if w then (.Number ⟨[c]⟩, rest) else Lexer.read_number [c] rest := by
  have := digit_cases h
  fin_cases this <;>
    (cases w <;> simp [Lexer.next_token, Lexer.skip_whitespace, isAsciiWhitespace,
      isAsciiDigit, isAsciiGraphic])

/-- Characters that the lexer turns into a plain `Letter` token: ASCII
graphic, not a digit, and not one of the specially dispatched symbols. -/
def plainLetter (c : Char) : Bool :=
  isAsciiGraphic c && !isAsciiDigit c &&
  !(c ∈ ['=', ';', ',', '\'', '(', ')', '{', '}', '[', ']', '|', '+', '-', '*', '!',
         '<', '>', '_', '^', '&', '~', ':', '\\'])

/-- Dispatch of `Lexer::next_token` on a plain letter. -/
theorem lex_plain {c : Char} (h : plainLetter c = true) (w : Bool) (rest : List Char) :
    Lexer.next_token w (c :: rest) = (.Letter c, rest) := by
  simp [plainLetter] at h
  obtain ⟨⟨hg, hd⟩, hne⟩ := h
  have h33 : 33 ≤ c.toNat := by
    simp [isAsciiGraphic, Char.le_def] at hg
    exact_mod_cast hg.1
  have hlow : ∀ d : Char, d.toNat < 33 → c ≠ d := by
    intro d hdlt he
    subst he
    omega
  obtain ⟨n1, n2, n3, n4, n5, n6, n7, n8, n9, n10, n11, n12, n13, n14, n15, n16,
    n17, n18, n19, n20, n21, n22, n23⟩ := hne
  simp [Lexer.next_token, Lexer.skip_whitespace, List.dropWhile, isAsciiWhitespace,
    hlow ' ' (by decide), hlow '\t' (by decide), hlow '\n' (by decide),
    hlow '\x0c' (by decide), hlow '\r' (by decide), hlow '\x00' (by decide),
    hd, hg, n1, n2, n3, n4, n5, n6, n7, n8, n9, n10, n11, n12, n13, n14, n15, n16,
    n17, n18, n19, n20, n21, n22, n23]

end Latex2mmlc

namespace Latex2mmlc

/-! ## Text-group reading lemmas -/

/-- A name readable by the text-content reader in one sweep: no braces,
no backslash, no NUL. -/
def plainName (s : List Char) : Bool :=
  s.all (fun c => !(c = '{' || c = '}' || c = '\\' || c = '\x00'))

theorem read_text_plain (name : List Char) (h : plainName name = true) (rest : List Char)
    (acc : List Char) (depth : Nat) (hd : depth ≤ 1) :
    Lexer.read_text_content_go acc depth (name ++ '}' :: rest) = some (⟨acc ++ name⟩, rest) := by
  induction name generalizing acc with
  | nil =>
    rw [Lexer.read_text_content_go.eq_def]
    simp [Char.reduceEq, hd]
  | cons c cs ih =>
    have h' : ((((c = '{' → False) ∧ (c = '}' → False)) ∧ (c = '\\' → False)) ∧
        (c = '\x00' → False)) ∧ plainName cs = true := by
      simpa [plainName, not_or] using h
    obtain ⟨⟨⟨⟨h1, h2⟩, h3⟩, h4⟩, h5⟩ := h'
    simp only [List.cons_append]
    rw [Lexer.read_text_content_go.eq_def]
    simp only []
    rw [if_neg h1, if_neg h2, if_neg h3, if_neg h4]
    rw [ih h5]
    simp

/-- `read_text_content` consumes exactly a plain name up to its `}`. -/
theorem read_text_content_plain (name : List Char) (h : plainName name = true)
    (rest : List Char) :
    Lexer.read_text_content (name ++ '}' :: rest) = some (⟨name⟩, rest) := by
  have := read_text_plain name h rest [] 1 (by omega)
  simpa [Lexer.read_text_content] using this

/-- Further dispatch lemmas for concrete input characters. -/
theorem lex_nil (w : Bool) : Lexer.next_token w [] = (.EOF, []) := rfl

theorem lex_underscore (w : Bool) (rest : List Char) :
    Lexer.next_token w ('_' :: rest) = (.Underscore, rest) := by cases w <;> rfl

theorem lex_circumflex (w : Bool) (rest : List Char) :
    Lexer.next_token w ('^' :: rest) = (.Circumflex, rest) := by cases w <;> rfl

theorem lex_lbrace (w : Bool) (rest : List Char) :
    Lexer.next_token w ('{' :: rest) = (.GroupBegin, rest) := by cases w <;> rfl

theorem lex_rbrace (w : Bool) (rest : List Char) :
    Lexer.next_token w ('}' :: rest) = (.GroupEnd, rest) := by cases w <;> rfl

theorem lex_lparen (w : Bool) (rest : List Char) :
    Lexer.next_token w ('(' :: rest) = (.Paren ops.LEFT_PARENTHESIS, rest) := by
  cases w <;> rfl

theorem lex_rparen (w : Bool) (rest : List Char) :
    Lexer.next_token w (')' :: rest) = (.Paren ops.RIGHT_PARENTHESIS, rest) := by
  cases w <;> rfl

theorem lex_backslash (w : Bool) (rest : List Char) :
    Lexer.next_token w ('\\' :: rest) =
      (Lexer.get_command (Lexer.read_command rest).1, (Lexer.read_command rest).2) := by
  cases w <;> rfl

end Latex2mmlc

namespace Latex2mmlc

/-- An ASCII digit is never an ASCII letter. -/
theorem digit_not_alpha {c : Char} (h : isAsciiDigit c = true) :
    isAsciiAlphabetic c = false := by
  have := digit_cases h
  fin_cases this <;> decide

/-- With `wants_digit` set, the lexer grabs exactly one digit as a
one-character `Number` token. -/
theorem lex_wants_digit {d : Char} (hd : isAsciiDigit d = true) (rest : List Char) :
    Lexer.next_token true (d :: rest) = (.Number ⟨[d]⟩, rest) := by
  rw [lex_digit hd]
  simp

/-- `Token::acts_on_a_digit` holds exactly for `\sqrt`, the `\frac`
family, the `\binom` family, and the font transforms. -/
theorem acts_on_a_digit_iff (t : Token) :
    t.acts_on_a_digit = true ↔
      t = .Sqrt ∨ (∃ x, t = .Frac x) ∨ (∃ x, t = .Binom x) ∨ (∃ x, t = .Transform x) := by
  cases t <;> simp [Token.acts_on_a_digit]

set_option maxHeartbeats 2000000 in
/-- Braceless `\sqrt d` parses exactly like `\sqrt{d}` for a digit `d`. -/
theorem sqrt_digit_brace_equiv (m : Nat) (d : Char) (hd : isAsciiDigit d = true)
    (r : List Char) :
    latexToAst (m + 12) ("\\sqrt".data ++ d :: r) =
      latexToAst (m + 12) ("\\sqrt".data ++ '{' :: d :: '}' :: r) := by
  have hsqrt : Lexer.get_command ⟨['s', 'q', 'r', 't']⟩ = Token.Sqrt := rfl
  have hda := digit_not_alpha hd
  have hd2 : (decide ('A' ≤ d) && decide (d ≤ 'Z') || decide ('a' ≤ d) && decide (d ≤ 'z')) = false := by
    simpa [isAsciiAlphabetic] using hda
  have hd3 : (decide ('0' ≤ d) && decide (d ≤ '9')) = true := by
    simpa [isAsciiDigit] using hd
  simp only [latexToAst, parse, Parser.new, stepToken, lex_backslash, lex_lbrace, lex_rbrace,
    lex_digit hd, hsqrt, hda,
    Lexer.read_command, Lexer.read_number, Lexer.punctFromChar, ops.FULL_STOP,
    Option.isSome,
    parseLoop, parse_node, parse_single_node, sqrt_arm, get_bounds, get_bounds_go,
    get_sub_or_sub, finishPrimes, Builder.is_empty, parse_group_go, Token.is_same_kind,
    Token.kindId,
    next_token, peekToken, pushNode, Bind.bind, PM.bind, Pure.pure, PM.pure,
    Token.acts_on_a_digit,
    squeeze, Builder.as_singleton_or_finish, Builder.push_ref, Builder.push, Builder.finish,
    Char.reduceEq, Char.reduceLE, decide_False, decide_True, Bool.false_or, Bool.or_false,
    Bool.true_or, Bool.or_true, Bool.false_and, Bool.true_and, Bool.and_false, Bool.and_true,
    decide_eq_true_eq, if_false, if_true, reduceCtorEq, Option.isNone,
    Bool.not_true, Bool.not_false, eq_self_iff_true, Option.map,
    List.nil_append, List.append_nil, List.cons_append, List.singleton_append,
    List.takeWhile, List.dropWhile, isAsciiWhitespace, isAsciiAlphabetic, isAsciiDigit,
    isAsciiGraphic, hd, hd2, hd3,
    Nat.reduceAdd, Nat.reduceSub, Nat.add_eq, Nat.add_zero, Nat.zero_add,
    Nat.reduceEqDiff]

set_option maxHeartbeats 2000000 in
/-- Braceless `\frac d e` parses exactly like `\frac{d}{e}` for digits
`d`, `e`, provided the lexer reads `e` as a complete one-digit number
(no further digits merge into it). -/
theorem frac_digit_brace_equiv (m : Nat) (d e : Char) (hd : isAsciiDigit d = true)
    (he : isAsciiDigit e = true) (r : List Char)
    (H : Lexer.read_number [e] r = (.Number ⟨[e]⟩, r)) :
    latexToAst (m + 12) ("\\frac".data ++ d :: e :: r) =
      latexToAst (m + 12) ("\\frac".data ++ '{' :: d :: '}' :: '{' :: e :: '}' :: r) := by
  have hfrac : Lexer.get_command ⟨['f', 'r', 'a', 'c']⟩ = Token.Frac none := rfl
  have hda := digit_not_alpha hd
  have hd2 : (decide ('A' ≤ d) && decide (d ≤ 'Z') || decide ('a' ≤ d) && decide (d ≤ 'z')) = false := by
    simpa [isAsciiAlphabetic] using hda
  have hd3 : (decide ('0' ≤ d) && decide (d ≤ '9')) = true := by
    simpa [isAsciiDigit] using hd
  have he3 : (decide ('0' ≤ e) && decide (e ≤ '9')) = true := by
    simpa [isAsciiDigit] using he
  simp only [latexToAst, parse, Parser.new, stepToken, lex_backslash, lex_lbrace, lex_rbrace,
    lex_digit hd, lex_digit he, H, hfrac, hda,
    Lexer.read_command, Lexer.read_number, Lexer.punctFromChar, ops.FULL_STOP,
    Option.isSome,
    parseLoop, parse_node, parse_single_node, frac_arm, parse_token, get_bounds, get_bounds_go,
    get_sub_or_sub, finishPrimes, Builder.is_empty, parse_group_go, Token.is_same_kind,
    Token.kindId,
    next_token, peekToken, pushNode, Bind.bind, PM.bind, Pure.pure, PM.pure,
    Token.acts_on_a_digit,
    squeeze, Builder.as_singleton_or_finish, Builder.push_ref, Builder.push, Builder.finish,
    Char.reduceEq, Char.reduceLE, decide_False, decide_True, Bool.false_or, Bool.or_false,
    Bool.true_or, Bool.or_true, Bool.false_and, Bool.true_and, Bool.and_false, Bool.and_true,
    decide_eq_true_eq, if_false, if_true, reduceCtorEq, Option.isNone,
    Bool.not_true, Bool.not_false, eq_self_iff_true, Option.map,
    List.nil_append, List.append_nil, List.cons_append, List.singleton_append,
    List.takeWhile, List.dropWhile, isAsciiWhitespace, isAsciiAlphabetic, isAsciiDigit,
    isAsciiGraphic, hd, hd2, hd3, he3,
    Nat.reduceAdd, Nat.reduceSub, Nat.add_eq, Nat.add_zero, Nat.zero_add,
    Nat.reduceEqDiff]

/-- C4 (amended): with `wants_digit` set the lexer emits a one-character
`Number` token on a digit; `wants_digit` is set exactly after `\sqrt`,
the `\frac` family, the `\binom` family, and the font transforms;
`\sqrt d…` parses identically to `\sqrt{d}…` for every digit `d` and
every rest of input; and `\frac d e…` parses identically to
`\frac{d}{e}…` whenever the lexer reads `e` as a complete one-digit
number.  (The unamended claim is refuted by `c4_counterexample`: in
`\frac123` the digit `2` merges with the following `3`.) -/
theorem c4_digit_grabbing :
    (∀ (d : Char) (rest : List Char), isAsciiDigit d = true →
        Lexer.next_token true (d :: rest) = (.Number ⟨[d]⟩, rest)) ∧
    (∀ t : Token, t.acts_on_a_digit = true ↔
        t = .Sqrt ∨ (∃ x, t = .Frac x) ∨ (∃ x, t = .Binom x) ∨ (∃ x, t = .Transform x)) ∧
    (∀ (m : Nat) (d : Char) (r : List Char), isAsciiDigit d = true →
        latexToAst (m + 12) ("\\sqrt".data ++ d :: r) =
          latexToAst (m + 12) ("\\sqrt".data ++ '{' :: d :: '}' :: r)) ∧
    (∀ (m : Nat) (d e : Char) (r : List Char), isAsciiDigit d = true → isAsciiDigit e = true →
        Lexer.read_number [e] r = (.Number ⟨[e]⟩, r) →
        latexToAst (m + 12) ("\\frac".data ++ d :: e :: r) =
          latexToAst (m + 12) ("\\frac".data ++ '{' :: d :: '}' :: '{' :: e :: '}' :: r)) :=
  ⟨fun d rest hd => lex_wants_digit hd rest,
   acts_on_a_digit_iff,
   fun m d r hd => sqrt_digit_brace_equiv m d hd r,
   fun m d e r hd he H => frac_digit_brace_equiv m d e hd he r H⟩

/-- C4 witness: the amended digit-grabbing equivalences at concrete
inputs `\sqrt12` / `\sqrt{1}2` and `\frac12x` / `\frac{1}{2}x`. -/
theorem c4_digit_grabbing_witness :
    Lexer.next_token true ('1' :: ['2']) = (.Number ⟨['1']⟩, ['2']) ∧
    ((Token.Sqrt).acts_on_a_digit = true ↔
      Token.Sqrt = .Sqrt ∨ (∃ x, Token.Sqrt = .Frac x) ∨ (∃ x, Token.Sqrt = .Binom x) ∨
        (∃ x, Token.Sqrt = .Transform x)) ∧
    latexToAst 12 ("\\sqrt".data ++ '1' :: ['2']) =
      latexToAst 12 ("\\sqrt".data ++ '{' :: '1' :: '}' :: ['2']) ∧
    latexToAst 12 ("\\frac".data ++ '1' :: '2' :: ['x']) =
      latexToAst 12 ("\\frac".data ++ '{' :: '1' :: '}' :: '{' :: '2' :: '}' :: ['x']) :=
  ⟨c4_digit_grabbing.1 '1' ['2'] (by decide),
   c4_digit_grabbing.2.1 Token.Sqrt,
   c4_digit_grabbing.2.2.1 0 '1' ['2'] (by decide),
   c4_digit_grabbing.2.2.2 0 '1' '2' ['x'] (by decide) (by decide) (by decide)⟩

/-- C4 counterexample: `\frac123` and `\frac{1}{2}3` resolve to
different trees — the lexer merges `2` and `3` into one number `23`,
so `\frac de` is not always the same as `\frac{d}{e}`. -/
theorem c4_counterexample :
    latexToTree 40 "\\frac123".data ≠ latexToTree 40 "\\frac{1}{2}3".data := by
  intro h
  rw [show latexToTree 40 "\\frac123".data =
        some (.ok (.PseudoRow [.Frac (.Number ("1")) (.Number ("23")) none none])) from rfl,
      show latexToTree 40 "\\frac{1}{2}3".data =
        some (.ok (.PseudoRow
          [.Frac (.Number ("1")) (.Number ("2")) none none, .Number ("3")])) from rfl] at h
  simp at h

end Latex2mmlc
namespace Latex2mmlc

/-- The environment names recognised by the `\begin` arm. -/
def recognizedEnv (s : String) : Bool :=
  s = "align" || s = "align*" || s = "aligned" || s = "cases" ||
  s = "matrix" || s = "pmatrix" || s = "bmatrix" || s = "vmatrix"

theorem rtc_align (rest : List Char) :
    Lexer.read_text_content ('a' :: 'l' :: 'i' :: 'g' :: 'n' :: '}' :: rest) =
      some ("align", rest) := by
  simpa using read_text_content_plain ['a', 'l', 'i', 'g', 'n'] (by decide) rest

theorem rtc_align_star (rest : List Char) :
    Lexer.read_text_content ('a' :: 'l' :: 'i' :: 'g' :: 'n' :: '*' :: '}' :: rest) =
      some ("align*", rest) := by
  simpa using read_text_content_plain ['a', 'l', 'i', 'g', 'n', '*'] (by decide) rest

theorem rtc_aligned (rest : List Char) :
    Lexer.read_text_content ('a' :: 'l' :: 'i' :: 'g' :: 'n' :: 'e' :: 'd' :: '}' :: rest) =
      some ("aligned", rest) := by
  simpa using read_text_content_plain ['a', 'l', 'i', 'g', 'n', 'e', 'd'] (by decide) rest

theorem rtc_cases (rest : List Char) :
    Lexer.read_text_content ('c' :: 'a' :: 's' :: 'e' :: 's' :: '}' :: rest) =
      some ("cases", rest) := by
  simpa using read_text_content_plain ['c', 'a', 's', 'e', 's'] (by decide) rest

theorem rtc_matrix (rest : List Char) :
    Lexer.read_text_content ('m' :: 'a' :: 't' :: 'r' :: 'i' :: 'x' :: '}' :: rest) =
      some ("matrix", rest) := by
  simpa using read_text_content_plain ['m', 'a', 't', 'r', 'i', 'x'] (by decide) rest

theorem rtc_pmatrix (rest : List Char) :
    Lexer.read_text_content ('p' :: 'm' :: 'a' :: 't' :: 'r' :: 'i' :: 'x' :: '}' :: rest) =
      some ("pmatrix", rest) := by
  simpa using read_text_content_plain ['p', 'm', 'a', 't', 'r', 'i', 'x'] (by decide) rest

theorem rtc_bmatrix (rest : List Char) :
    Lexer.read_text_content ('b' :: 'm' :: 'a' :: 't' :: 'r' :: 'i' :: 'x' :: '}' :: rest) =
      some ("bmatrix", rest) := by
  simpa using read_text_content_plain ['b', 'm', 'a', 't', 'r', 'i', 'x'] (by decide) rest

theorem rtc_vmatrix (rest : List Char) :
    Lexer.read_text_content ('v' :: 'm' :: 'a' :: 't' :: 'r' :: 'i' :: 'x' :: '}' :: rest) =
      some ("vmatrix", rest) := by
  simpa using read_text_content_plain ['v', 'm', 'a', 't', 'r', 'i', 'x'] (by decide) rest

/-- A failing `\begin` arm propagates to a failing parse of the whole
input `\begin{…`. -/
theorem latex_begin_stem (F : Nat) (rest0 : List Char) (E : LatexError)
    (hFail : begin_arm F ⟨rest0, .GroupBegin, [], []⟩ = some (.error E)) :
    latexToAst (F + 3) ("\\begin".data ++ '{' :: rest0) = some (.error E) := by
  have hbegin : Lexer.get_command ⟨['b', 'e', 'g', 'i', 'n']⟩ = Token.Begin := rfl
  simp only [latexToAst, parse, Parser.new, stepToken, lex_backslash, lex_lbrace, hbegin,
    String.data,
    parseLoop, parse_node, parse_single_node,
    next_token, peekToken, Bind.bind, PM.bind, Pure.pure, PM.pure, PM.throw,
    Lexer.read_command, List.takeWhile, List.dropWhile,
    isAsciiAlphabetic, isAsciiDigit, isAsciiGraphic, isAsciiWhitespace,
    Token.acts_on_a_digit,
    Char.reduceEq, Char.reduceLE, decide_False, decide_True,
    Bool.false_or, Bool.or_false, Bool.true_or, Bool.or_true, Bool.false_and,
    Bool.true_and, Bool.and_false, Bool.and_true, Bool.not_true, Bool.not_false,
    decide_eq_true_eq, if_false, if_true, reduceCtorEq, eq_self_iff_true,
    List.cons_append, List.nil_append, List.append_nil, List.singleton_append,
    hFail]

/-- An unrecognised environment name makes the `\begin` arm throw
`UnknownEnvironment`. -/
theorem begin_arm_unknown (name : List Char) (h : plainName name = true)
    (hu : recognizedEnv ⟨name⟩ = false) (rest : List Char) :
    begin_arm 9 ⟨name ++ '}' :: rest, .GroupBegin, [], []⟩ =
      some (.error (.UnknownEnvironment ⟨name⟩)) := by
  have h8 : ((((((¬((⟨name⟩ : String) = "align") ∧ ¬((⟨name⟩ : String) = "align*")) ∧
      ¬((⟨name⟩ : String) = "aligned")) ∧ ¬((⟨name⟩ : String) = "cases")) ∧
      ¬((⟨name⟩ : String) = "matrix")) ∧ ¬((⟨name⟩ : String) = "pmatrix")) ∧
      ¬((⟨name⟩ : String) = "bmatrix")) ∧ ¬((⟨name⟩ : String) = "vmatrix") := by
    simpa [recognizedEnv, not_or] using hu
  obtain ⟨⟨⟨⟨⟨⟨⟨e1, e2⟩, e3⟩, e4⟩, e5⟩, e6⟩, e7⟩, e8⟩ := h8
  simp only [begin_arm, check_lbrace, parse_text_group, stepToken,
    read_text_content_plain name h,
    peekToken, Bind.bind, PM.bind, Pure.pure, PM.pure, PM.throw,
    e1, e2, e3, e4, e5, e6, e7, e8,
    decide_False, decide_True, Bool.false_or, Bool.or_false, Bool.false_and,
    decide_eq_true_eq, if_false, if_true, reduceCtorEq, eq_self_iff_true]

set_option maxHeartbeats 1000000 in
theorem begin_arm_mm_align (name : List Char) (h : plainName name = true)
    (hne : (⟨name⟩ : String) ≠ "align") (rest : List Char) :
    begin_arm 9 ⟨'a' :: 'l' :: 'i' :: 'g' :: 'n' :: '}' ::
        '\\' :: 'e' :: 'n' :: 'd' :: '{' :: name ++ '}' :: rest,
      .GroupBegin, [], []⟩ =
      some (.error (.MismatchedEnvironment "align" ⟨name⟩)) := by
  have hend : Lexer.get_command ⟨['e', 'n', 'd']⟩ = Token.End := rfl
  simp only [begin_arm, check_lbrace, parse_text_group, rtc_align, stepToken,
    read_text_content_plain name h, hend, lex_backslash, lex_nil, lex_lbrace,
    parse_table, parse_group_go, Token.is_same_kind, Token.kindId,
    next_token, peekToken, pushNode, Bind.bind, PM.bind, Pure.pure, PM.pure, PM.throw,
    Lexer.read_command, List.takeWhile, List.dropWhile,
    isAsciiAlphabetic, isAsciiDigit, isAsciiGraphic, isAsciiWhitespace,
    Token.acts_on_a_digit, hne,
    String.reduceEq, ne_eq, not_false_eq_true,
    Char.reduceEq, Char.reduceLE, decide_False, decide_True,
    Bool.false_or, Bool.or_false, Bool.true_or, Bool.or_true, Bool.false_and,
    Bool.true_and, Bool.and_false, Bool.and_true, Bool.not_true, Bool.not_false,
    decide_eq_true_eq, if_false, if_true, reduceCtorEq, eq_self_iff_true,
    Builder.finish, Builder.push_ref, Builder.push, Builder.is_empty,
    List.cons_append, List.nil_append, List.append_nil, List.singleton_append]


set_option maxHeartbeats 1000000 in
theorem begin_arm_mm_align_star (name : List Char) (h : plainName name = true)
    (hne : (⟨name⟩ : String) ≠ "align*") (rest : List Char) :
    begin_arm 9 ⟨'a' :: 'l' :: 'i' :: 'g' :: 'n' :: '*' :: '}' ::
        '\\' :: 'e' :: 'n' :: 'd' :: '{' :: name ++ '}' :: rest,
      .GroupBegin, [], []⟩ =
      some (.error (.MismatchedEnvironment "align*" ⟨name⟩)) := by
  have hend : Lexer.get_command ⟨['e', 'n', 'd']⟩ = Token.End := rfl
  simp only [begin_arm, check_lbrace, parse_text_group, rtc_align_star, stepToken,
    read_text_content_plain name h, hend, lex_backslash, lex_nil, lex_lbrace,
    parse_table, parse_group_go, Token.is_same_kind, Token.kindId,
    next_token, peekToken, pushNode, Bind.bind, PM.bind, Pure.pure, PM.pure, PM.throw,
    Lexer.read_command, List.takeWhile, List.dropWhile,
    isAsciiAlphabetic, isAsciiDigit, isAsciiGraphic, isAsciiWhitespace,
    Token.acts_on_a_digit, hne,
    String.reduceEq, ne_eq, not_false_eq_true,
    Char.reduceEq, Char.reduceLE, decide_False, decide_True,
    Bool.false_or, Bool.or_false, Bool.true_or, Bool.or_true, Bool.false_and,
    Bool.true_and, Bool.and_false, Bool.and_true, Bool.not_true, Bool.not_false,
    decide_eq_true_eq, if_false, if_true, reduceCtorEq, eq_self_iff_true,
    Builder.finish, Builder.push_ref, Builder.push, Builder.is_empty,
    List.cons_append, List.nil_append, List.append_nil, List.singleton_append]


set_option maxHeartbeats 1000000 in
theorem begin_arm_mm_aligned (name : List Char) (h : plainName name = true)
    (hne : (⟨name⟩ : String) ≠ "aligned") (rest : List Char) :
    begin_arm 9 ⟨'a' :: 'l' :: 'i' :: 'g' :: 'n' :: 'e' :: 'd' :: '}' ::
        '\\' :: 'e' :: 'n' :: 'd' :: '{' :: name ++ '}' :: rest,
      .GroupBegin, [], []⟩ =
      some (.error (.MismatchedEnvironment "aligned" ⟨name⟩)) := by
  have hend : Lexer.get_command ⟨['e', 'n', 'd']⟩ = Token.End := rfl
  simp only [begin_arm, check_lbrace, parse_text_group, rtc_aligned, stepToken,
    read_text_content_plain name h, hend, lex_backslash, lex_nil, lex_lbrace,
    parse_table, parse_group_go, Token.is_same_kind, Token.kindId,
    next_token, peekToken, pushNode, Bind.bind, PM.bind, Pure.pure, PM.pure, PM.throw,
    Lexer.read_command, List.takeWhile, List.dropWhile,
    isAsciiAlphabetic, isAsciiDigit, isAsciiGraphic, isAsciiWhitespace,
    Token.acts_on_a_digit, hne,
    String.reduceEq, ne_eq, not_false_eq_true,
    Char.reduceEq, Char.reduceLE, decide_False, decide_True,
    Bool.false_or, Bool.or_false, Bool.true_or, Bool.or_true, Bool.false_and,
    Bool.true_and, Bool.and_false, Bool.and_true, Bool.not_true, Bool.not_false,
    decide_eq_true_eq, if_false, if_true, reduceCtorEq, eq_self_iff_true,
    Builder.finish, Builder.push_ref, Builder.push, Builder.is_empty,
    List.cons_append, List.nil_append, List.append_nil, List.singleton_append]


set_option maxHeartbeats 1000000 in
theorem begin_arm_mm_cases (name : List Char) (h : plainName name = true)
    (hne : (⟨name⟩ : String) ≠ "cases") (rest : List Char) :
    begin_arm 9 ⟨'c' :: 'a' :: 's' :: 'e' :: 's' :: '}' ::
        '\\' :: 'e' :: 'n' :: 'd' :: '{' :: name ++ '}' :: rest,
      .GroupBegin, [], []⟩ =
      some (.error (.MismatchedEnvironment "cases" ⟨name⟩)) := by
  have hend : Lexer.get_command ⟨['e', 'n', 'd']⟩ = Token.End := rfl
  simp only [begin_arm, check_lbrace, parse_text_group, rtc_cases, stepToken,
    read_text_content_plain name h, hend, lex_backslash, lex_nil, lex_lbrace,
    parse_table, parse_group_go, Token.is_same_kind, Token.kindId,
    next_token, peekToken, pushNode, Bind.bind, PM.bind, Pure.pure, PM.pure, PM.throw,
    Lexer.read_command, List.takeWhile, List.dropWhile,
    isAsciiAlphabetic, isAsciiDigit, isAsciiGraphic, isAsciiWhitespace,
    Token.acts_on_a_digit, hne,
    String.reduceEq, ne_eq, not_false_eq_true,
    Char.reduceEq, Char.reduceLE, decide_False, decide_True,
    Bool.false_or, Bool.or_false, Bool.true_or, Bool.or_true, Bool.false_and,
    Bool.true_and, Bool.and_false, Bool.and_true, Bool.not_true, Bool.not_false,
    decide_eq_true_eq, if_false, if_true, reduceCtorEq, eq_self_iff_true,
    Builder.finish, Builder.push_ref, Builder.push, Builder.is_empty,
    List.cons_append, List.nil_append, List.append_nil, List.singleton_append]


set_option maxHeartbeats 1000000 in
theorem begin_arm_mm_matrix (name : List Char) (h : plainName name = true)
    (hne : (⟨name⟩ : String) ≠ "matrix") (rest : List Char) :
    begin_arm 9 ⟨'m' :: 'a' :: 't' :: 'r' :: 'i' :: 'x' :: '}' ::
        '\\' :: 'e' :: 'n' :: 'd' :: '{' :: name ++ '}' :: rest,
      .GroupBegin, [], []⟩ =
      some (.error (.MismatchedEnvironment "matrix" ⟨name⟩)) := by
  have hend : Lexer.get_command ⟨['e', 'n', 'd']⟩ = Token.End := rfl
  simp only [begin_arm, check_lbrace, parse_text_group, rtc_matrix, stepToken,
    read_text_content_plain name h, hend, lex_backslash, lex_nil, lex_lbrace,
    parse_table, parse_group_go, Token.is_same_kind, Token.kindId,
    next_token, peekToken, pushNode, Bind.bind, PM.bind, Pure.pure, PM.pure, PM.throw,
    Lexer.read_command, List.takeWhile, List.dropWhile,
    isAsciiAlphabetic, isAsciiDigit, isAsciiGraphic, isAsciiWhitespace,
    Token.acts_on_a_digit, hne,
    String.reduceEq, ne_eq, not_false_eq_true,
    Char.reduceEq, Char.reduceLE, decide_False, decide_True,
    Bool.false_or, Bool.or_false, Bool.true_or, Bool.or_true, Bool.false_and,
    Bool.true_and, Bool.and_false, Bool.and_true, Bool.not_true, Bool.not_false,
    decide_eq_true_eq, if_false, if_true, reduceCtorEq, eq_self_iff_true,
    Builder.finish, Builder.push_ref, Builder.push, Builder.is_empty,
    List.cons_append, List.nil_append, List.append_nil, List.singleton_append]


set_option maxHeartbeats 1000000 in
theorem begin_arm_mm_pmatrix (name : List Char) (h : plainName name = true)
    (hne : (⟨name⟩ : String) ≠ "pmatrix") (rest : List Char) :
    begin_arm 9 ⟨'p' :: 'm' :: 'a' :: 't' :: 'r' :: 'i' :: 'x' :: '}' ::
        '\\' :: 'e' :: 'n' :: 'd' :: '{' :: name ++ '}' :: rest,
      .GroupBegin, [], []⟩ =
      some (.error (.MismatchedEnvironment "pmatrix" ⟨name⟩)) := by
  have hend : Lexer.get_command ⟨['e', 'n', 'd']⟩ = Token.End := rfl
  simp only [begin_arm, check_lbrace, parse_text_group, rtc_pmatrix, stepToken,
    read_text_content_plain name h, hend, lex_backslash, lex_nil, lex_lbrace,
    parse_table, parse_group_go, Token.is_same_kind, Token.kindId,
    next_token, peekToken, pushNode, Bind.bind, PM.bind, Pure.pure, PM.pure, PM.throw,
    Lexer.read_command, List.takeWhile, List.dropWhile,
    isAsciiAlphabetic, isAsciiDigit, isAsciiGraphic, isAsciiWhitespace,
    Token.acts_on_a_digit, hne,
    String.reduceEq, ne_eq, not_false_eq_true,
    Char.reduceEq, Char.reduceLE, decide_False, decide_True,
    Bool.false_or, Bool.or_false, Bool.true_or, Bool.or_true, Bool.false_and,
    Bool.true_and, Bool.and_false, Bool.and_true, Bool.not_true, Bool.not_false,
    decide_eq_true_eq, if_false, if_true, reduceCtorEq, eq_self_iff_true,
    Builder.finish, Builder.push_ref, Builder.push, Builder.is_empty,
    List.cons_append, List.nil_append, List.append_nil, List.singleton_append]


set_option maxHeartbeats 1000000 in
theorem begin_arm_mm_bmatrix (name : List Char) (h : plainName name = true)
    (hne : (⟨name⟩ : String) ≠ "bmatrix") (rest : List Char) :
    begin_arm 9 ⟨'b' :: 'm' :: 'a' :: 't' :: 'r' :: 'i' :: 'x' :: '}' ::
        '\\' :: 'e' :: 'n' :: 'd' :: '{' :: name ++ '}' :: rest,
      .GroupBegin, [], []⟩ =
      some (.error (.MismatchedEnvironment "bmatrix" ⟨name⟩)) := by
  have hend : Lexer.get_command ⟨['e', 'n', 'd']⟩ = Token.End := rfl
  simp only [begin_arm, check_lbrace, parse_text_group, rtc_bmatrix, stepToken,
    read_text_content_plain name h, hend, lex_backslash, lex_nil, lex_lbrace,
    parse_table, parse_group_go, Token.is_same_kind, Token.kindId,
    next_token, peekToken, pushNode, Bind.bind, PM.bind, Pure.pure, PM.pure, PM.throw,
    Lexer.read_command, List.takeWhile, List.dropWhile,
    isAsciiAlphabetic, isAsciiDigit, isAsciiGraphic, isAsciiWhitespace,
    Token.acts_on_a_digit, hne,
    String.reduceEq, ne_eq, not_false_eq_true,
    Char.reduceEq, Char.reduceLE, decide_False, decide_True,
    Bool.false_or, Bool.or_false, Bool.true_or, Bool.or_true, Bool.false_and,
    Bool.true_and, Bool.and_false, Bool.and_true, Bool.not_true, Bool.not_false,
    decide_eq_true_eq, if_false, if_true, reduceCtorEq, eq_self_iff_true,
    Builder.finish, Builder.push_ref, Builder.push, Builder.is_empty,
    List.cons_append, List.nil_append, List.append_nil, List.singleton_append]


set_option maxHeartbeats 1000000 in
theorem begin_arm_mm_vmatrix (name : List Char) (h : plainName name = true)
    (hne : (⟨name⟩ : String) ≠ "vmatrix") (rest : List Char) :
    begin_arm 9 ⟨'v' :: 'm' :: 'a' :: 't' :: 'r' :: 'i' :: 'x' :: '}' ::
        '\\' :: 'e' :: 'n' :: 'd' :: '{' :: name ++ '}' :: rest,
      .GroupBegin, [], []⟩ =
      some (.error (.MismatchedEnvironment "vmatrix" ⟨name⟩)) := by
  have hend : Lexer.get_command ⟨['e', 'n', 'd']⟩ = Token.End := rfl
  simp only [begin_arm, check_lbrace, parse_text_group, rtc_vmatrix, stepToken,
    read_text_content_plain name h, hend, lex_backslash, lex_nil, lex_lbrace,
    parse_table, parse_group_go, Token.is_same_kind, Token.kindId,
    next_token, peekToken, pushNode, Bind.bind, PM.bind, Pure.pure, PM.pure, PM.throw,
    Lexer.read_command, List.takeWhile, List.dropWhile,
    isAsciiAlphabetic, isAsciiDigit, isAsciiGraphic, isAsciiWhitespace,
    Token.acts_on_a_digit, hne,
    String.reduceEq, ne_eq, not_false_eq_true,
    Char.reduceEq, Char.reduceLE, decide_False, decide_True,
    Bool.false_or, Bool.or_false, Bool.true_or, Bool.or_true, Bool.false_and,
    Bool.true_and, Bool.and_false, Bool.and_true, Bool.not_true, Bool.not_false,
    decide_eq_true_eq, if_false, if_true, reduceCtorEq, eq_self_iff_true,
    Builder.finish, Builder.push_ref, Builder.push, Builder.is_empty,
    List.cons_append, List.nil_append, List.append_nil, List.singleton_append]

/-- C6: a `\begin{…}` whose name is not one of the eight recognised
environments yields `UnknownEnvironment(name)`, and a recognised
environment closed by an `\end{…}` whose name differs in any way yields
`MismatchedEnvironment{expected, got}`. -/
theorem c6_environment_errors :
    (∀ (name : List Char) (rest : List Char), plainName name = true →
        recognizedEnv ⟨name⟩ = false →
        latexToAst 12 ("\\begin".data ++ '{' :: name ++ '}' :: rest) =
          some (.error (.UnknownEnvironment ⟨name⟩))) ∧
    (∀ (env : String), recognizedEnv env = true →
        ∀ (name : List Char) (rest : List Char), plainName name = true →
          (⟨name⟩ : String) ≠ env →
          latexToAst 12 ("\\begin".data ++ '{' :: (env.data ++ '}' ::
              '\\' :: 'e' :: 'n' :: 'd' :: '{' :: name ++ '}' :: rest)) =
            some (.error (.MismatchedEnvironment env ⟨name⟩))) := by
  constructor
  · intro name rest h hu
    exact latex_begin_stem 9 _ _ (begin_arm_unknown name h hu rest)
  · intro env henv name rest h hne
    have henv8 : env = "align" ∨ env = "align*" ∨ env = "aligned" ∨ env = "cases" ∨
        env = "matrix" ∨ env = "pmatrix" ∨ env = "bmatrix" ∨ env = "vmatrix" := by
      simpa [recognizedEnv, or_assoc] using henv
    rcases henv8 with h0|h0|h0|h0|h0|h0|h0|h0 <;> subst h0
    · exact latex_begin_stem 9 _ _ (begin_arm_mm_align name h hne rest)
    · exact latex_begin_stem 9 _ _ (begin_arm_mm_align_star name h hne rest)
    · exact latex_begin_stem 9 _ _ (begin_arm_mm_aligned name h hne rest)
    · exact latex_begin_stem 9 _ _ (begin_arm_mm_cases name h hne rest)
    · exact latex_begin_stem 9 _ _ (begin_arm_mm_matrix name h hne rest)
    · exact latex_begin_stem 9 _ _ (begin_arm_mm_pmatrix name h hne rest)
    · exact latex_begin_stem 9 _ _ (begin_arm_mm_bmatrix name h hne rest)
    · exact latex_begin_stem 9 _ _ (begin_arm_mm_vmatrix name h hne rest)

/-- C6 witness: `\begin{foo}` is an unknown environment, and
`\begin{matrix}\end{pmatrix}` is a mismatch. -/
theorem c6_environment_errors_witness :
    latexToAst 12 ("\\begin".data ++ '{' :: ('f' :: 'o' :: 'o' :: []) ++ '}' :: []) =
      some (.error (.UnknownEnvironment ⟨'f' :: 'o' :: 'o' :: []⟩)) ∧
    latexToAst 12 ("\\begin".data ++ '{' :: ("matrix".data ++ '}' ::
        '\\' :: 'e' :: 'n' :: 'd' :: '{' :: ('p' :: 'm' :: 'a' :: 't' :: 'r' :: 'i' :: 'x' :: []) ++ '}' :: [])) =
      some (.error (.MismatchedEnvironment "matrix" ⟨'p' :: 'm' :: 'a' :: 't' :: 'r' :: 'i' :: 'x' :: []⟩)) :=
  ⟨c6_environment_errors.1 ('f' :: 'o' :: 'o' :: []) [] (by decide) (by decide),
   c6_environment_errors.2 "matrix" (by decide) ('p' :: 'm' :: 'a' :: 't' :: 'r' :: 'i' :: 'x' :: []) []
     (by decide) (by decide)⟩


set_option maxHeartbeats 1000000 in
/-- Parsing `x_a^b` (underscore first) gives `SubSup x a b`. -/
theorem subsup_underscore_first (m : Nat) (a b : Char)
    (ha : plainLetter a = true) (hb : plainLetter b = true) :
    latexToTree (m + 8) ('x' :: '_' :: a :: '^' :: b :: []) =
      some (.ok (.PseudoRow [.SubSup (.SingleLetterIdent 'x' none)
        (.SingleLetterIdent a none) (.SingleLetterIdent b none)])) := by
  have hx := lex_plain (show plainLetter 'x' = true by decide)
  simp only [latexToTree, latexToAst, parse, Parser.new, stepToken, lex_plain ha,
    lex_plain hb, hx, lex_underscore, lex_circumflex, lex_nil,
    parseLoop, parse_node, parse_single_node, get_bounds, get_bounds_go,
    get_sub_or_sub, finishPrimes, Builder.is_empty,
    next_token, peekToken, pushNode, Bind.bind, PM.bind, Pure.pure, PM.pure,
    Token.acts_on_a_digit,
    squeeze, Builder.as_singleton_or_finish, Builder.push_ref, Builder.push, Builder.finish,
    resolveNode, resolveRef, resolveList, bufSlice,
    Char.reduceEq, Char.reduceLE, decide_False, decide_True, Bool.false_or, Bool.or_false,
    Bool.true_or, Bool.or_true, Bool.false_and, Bool.true_and, Bool.and_false, Bool.and_true,
    decide_eq_true_eq, if_false, if_true, reduceCtorEq, Option.isNone,
    Bool.not_true, Bool.not_false, eq_self_iff_true, Option.map,
    List.nil_append, List.append_nil, List.cons_append, List.singleton_append,
    List.length_nil, List.length_cons, List.length_append, List.get?, List.take, List.drop,
    Nat.reduceAdd, Nat.reduceSub, Nat.add_eq, Nat.add_zero, Nat.zero_add,
    Option.bind_eq_bind, Option.some_bind, Option.none_bind, Option.bind]

set_option maxHeartbeats 1000000 in
/-- Parsing `x^b_a` (circumflex first) also gives `SubSup x a b`. -/
theorem subsup_circumflex_first (m : Nat) (a b : Char)
    (ha : plainLetter a = true) (hb : plainLetter b = true) :
    latexToTree (m + 8) ('x' :: '^' :: b :: '_' :: a :: []) =
      some (.ok (.PseudoRow [.SubSup (.SingleLetterIdent 'x' none)
        (.SingleLetterIdent a none) (.SingleLetterIdent b none)])) := by
  have hx := lex_plain (show plainLetter 'x' = true by decide)
  simp only [latexToTree, latexToAst, parse, Parser.new, stepToken, lex_plain ha,
    lex_plain hb, hx, lex_underscore, lex_circumflex, lex_nil,
    parseLoop, parse_node, parse_single_node, get_bounds, get_bounds_go,
    get_sub_or_sub, finishPrimes, Builder.is_empty,
    next_token, peekToken, pushNode, Bind.bind, PM.bind, Pure.pure, PM.pure,
    Token.acts_on_a_digit,
    squeeze, Builder.as_singleton_or_finish, Builder.push_ref, Builder.push, Builder.finish,
    resolveNode, resolveRef, resolveList, bufSlice,
    Char.reduceEq, Char.reduceLE, decide_False, decide_True, Bool.false_or, Bool.or_false,
    Bool.true_or, Bool.or_true, Bool.false_and, Bool.true_and, Bool.and_false, Bool.and_true,
    decide_eq_true_eq, if_false, if_true, reduceCtorEq, Option.isNone,
    Bool.not_true, Bool.not_false, eq_self_iff_true, Option.map,
    List.nil_append, List.append_nil, List.cons_append, List.singleton_append,
    List.length_nil, List.length_cons, List.length_append, List.get?, List.take, List.drop,
    Nat.reduceAdd, Nat.reduceSub, Nat.add_eq, Nat.add_zero, Nat.zero_add,
    Option.bind_eq_bind, Option.some_bind, Option.none_bind, Option.bind]

/-- C5 (amended): for single plain letters `a`, `b`, both `x_a^b` and
`x^b_a` resolve to the same `SubSup` tree with sub `a` and sup `b`.
(The unamended claim over all subexpressions is refuted by
`c5_counterexample`: when the subscript is `\sum`, putting the
underscore first lets the big operator grab the `^b` bound itself.) -/
theorem c5_subsup_swap :
    ∀ (m : Nat) (a b : Char), plainLetter a = true → plainLetter b = true →
      latexToTree (m + 8) ('x' :: '_' :: a :: '^' :: b :: []) =
        some (.ok (.PseudoRow [.SubSup (.SingleLetterIdent 'x' none)
          (.SingleLetterIdent a none) (.SingleLetterIdent b none)])) ∧
      latexToTree (m + 8) ('x' :: '^' :: b :: '_' :: a :: []) =
        some (.ok (.PseudoRow [.SubSup (.SingleLetterIdent 'x' none)
          (.SingleLetterIdent a none) (.SingleLetterIdent b none)])) :=
  fun m a b ha hb =>
    ⟨subsup_underscore_first m a b ha hb, subsup_circumflex_first m a b ha hb⟩

/-- C5 witness: `x_a^b` and `x^b_a` at the concrete letters `a`, `b`. -/
theorem c5_subsup_swap_witness :
    latexToTree 8 ('x' :: '_' :: 'a' :: '^' :: 'b' :: []) =
      some (.ok (.PseudoRow [.SubSup (.SingleLetterIdent 'x' none)
        (.SingleLetterIdent 'a' none) (.SingleLetterIdent 'b' none)])) ∧
    latexToTree 8 ('x' :: '^' :: 'b' :: '_' :: 'a' :: []) =
      some (.ok (.PseudoRow [.SubSup (.SingleLetterIdent 'x' none)
        (.SingleLetterIdent 'a' none) (.SingleLetterIdent 'b' none)])) :=
  c5_subsup_swap 0 'a' 'b' (by decide) (by decide)

/-- C5 counterexample: with `\sum` as the subscript expression the two
orders differ — `x_\sum^b` nests the `^b` inside the big operator
(`Subscript x (Overset ∑ b)`), while `x^b_\sum` gives `SubSup x ∑ b`. -/
theorem c5_counterexample :
    latexToTree 40 "x_\\sum^b".data ≠ latexToTree 40 "x^b_\\sum".data := by
  intro h
  rw [show latexToTree 40 "x_\\sum^b".data =
        some (.ok (.PseudoRow [.Subscript (.SingleLetterIdent 'x' none)
          (.Overset (.Operator '∑' none) (.SingleLetterIdent 'b' none))])) from rfl,
      show latexToTree 40 "x^b_\\sum".data =
        some (.ok (.PseudoRow [.SubSup (.SingleLetterIdent 'x' none)
          (.Operator '∑' none) (.SingleLetterIdent 'b' none)])) from rfl] at h
  simp at h


/-- C1 (amended): a stray `^` or `'` where a node is expected throws
`CannotBeUsedHere` (for any fuel and any parser state), and so do the
inputs `^a` and `'a`; but a stray `_` is NOT an error: the parser reads
`_ab` as a prescript `Multiscript` with sub `a` and base `b` (refuting
the unamended claim, see `c1_counterexample`). -/
theorem c1_stray_scripts :
    (∀ (n : Nat) (s : PState), parse_single_node (n + 1) .Circumflex s =
        some (.error (.CannotBeUsedHere .Circumflex "after an identifier or operator"))) ∧
    (∀ (n : Nat) (s : PState), parse_single_node (n + 1) .Prime s =
        some (.error (.CannotBeUsedHere .Prime "after an identifier or operator"))) ∧
    latexToTree 8 ('^' :: 'a' :: []) =
      some (.error (.CannotBeUsedHere .Circumflex "after an identifier or operator")) ∧
    latexToTree 8 ('\'' :: 'a' :: []) =
      some (.error (.CannotBeUsedHere .Prime "after an identifier or operator")) ∧
    latexToTree 8 ('_' :: 'a' :: 'b' :: []) =
      some (.ok (.PseudoRow [.Multiscript (.SingleLetterIdent 'b' none)
        (.SingleLetterIdent 'a' none)])) :=
  ⟨fun n s => rfl, fun n s => rfl, rfl, rfl, rfl⟩

/-- C1 counterexample: the input `_ab` (stray underscore where a node is
expected) does not produce any error at all — unlike stray `^` and `'`
it parses successfully to a `Multiscript` node. -/
theorem c1_counterexample :
    latexToTree 8 ('_' :: 'a' :: 'b' :: []) =
      some (.ok (.PseudoRow [.Multiscript (.SingleLetterIdent 'b' none)
        (.SingleLetterIdent 'a' none)])) ∧
    ∀ E : LatexError, latexToTree 8 ('_' :: 'a' :: 'b' :: []) ≠ some (.error E) := by
  refine ⟨rfl, fun E h => ?_⟩
  rw [show latexToTree 8 ('_' :: 'a' :: 'b' :: []) =
      some (.ok (.PseudoRow [.Multiscript (.SingleLetterIdent 'b' none)
        (.SingleLetterIdent 'a' none)])) from rfl] at h
  simp at h

end Latex2mmlc
namespace Latex2mmlc

/-- A digit is not a number punctuation character. -/
theorem digit_punct_none {d : Char} (hd : isAsciiDigit d = true) :
    Lexer.punctFromChar d = none := by
  have := digit_cases hd
  fin_cases this <;> decide

/-- Step equations of `read_number` (complete case split on the head). -/
theorem read_number_digit (acc : List Char) {d : Char} (hd : isAsciiDigit d = true)
    (rest : List Char) :
    Lexer.read_number acc (d :: rest) = Lexer.read_number (acc ++ [d]) rest := by
  rw [Lexer.read_number]
  rw [if_pos (by simp [hd])]
  rcases h : !(isAsciiDigit (rest.headD '\x00')) with _ | _
  · simp [h]
  · simp [h, digit_punct_none hd]

theorem read_number_punct_digit (acc : List Char) {p d : Char}
    (hp : (Lexer.punctFromChar p).isSome = true) (hd : isAsciiDigit d = true)
    (rest : List Char) :
    Lexer.read_number acc (p :: d :: rest) = Lexer.read_number (acc ++ [p]) (d :: rest) := by
  rw [Lexer.read_number]
  rw [if_pos (by simp [hp])]
  simp [hd]

theorem read_number_dot_end (acc : List Char) {p : Char}
    (hp : Lexer.punctFromChar p = some .Dot) (rest : List Char)
    (hnd : isAsciiDigit (rest.headD '\x00') = false) :
    Lexer.read_number acc (p :: rest) = (.NumberWithDot ⟨acc⟩, rest) := by
  rw [Lexer.read_number]
  rw [if_pos (by simp [hp]), if_pos (by rw [hnd]; rfl), hp]

theorem read_number_comma_end (acc : List Char) {p : Char}
    (hp : Lexer.punctFromChar p = some .Comma) (rest : List Char)
    (hnd : isAsciiDigit (rest.headD '\x00') = false) :
    Lexer.read_number acc (p :: rest) = (.NumberWithComma ⟨acc⟩, rest) := by
  rw [Lexer.read_number]
  rw [if_pos (by simp [hp]), if_pos (by rw [hnd]; rfl), hp]

theorem read_number_stop (acc : List Char) {c : Char}
    (hc : isAsciiDigit c = false) (hp : Lexer.punctFromChar c = none)
    (rest : List Char) :
    Lexer.read_number acc (c :: rest) = (.Number ⟨acc⟩, c :: rest) := by
  rw [Lexer.read_number]
  rw [if_neg (by simp [hc, hp])]

end Latex2mmlc
namespace Latex2mmlc

/-- Number punctuation is exactly `.` and `,`. -/
theorem punct_iff (c : Char) :
    (Lexer.punctFromChar c).isSome = true ↔ (c = '.' ∨ c = ',') := by
  by_cases h1 : c = '.' <;> by_cases h2 : c = ',' <;>
    simp [Lexer.punctFromChar, ops.FULL_STOP, h1, h2]

/-- C2 (amended): `read_number` consumes any digit; it consumes a `.` or
`,` whenever the next character is a digit — with no bound on how many
such punctuation characters one token may contain; a `.`/`,` not
followed by a digit ends the token as `NumberWithDot`/`NumberWithComma`
(the punctuation excluded); any other character ends it as `Number`; and
number punctuation is exactly `.` and `,`.  (The unamended claim —
"at most one punctuation character, so `1.2.3` is never one Number
token" — is refuted by `c2_counterexample`.) -/
theorem c2_read_number :
    (∀ (acc : List Char) (d : Char) (rest : List Char), isAsciiDigit d = true →
        Lexer.read_number acc (d :: rest) = Lexer.read_number (acc ++ [d]) rest) ∧
    (∀ (acc : List Char) (p d : Char) (rest : List Char),
        (Lexer.punctFromChar p).isSome = true → isAsciiDigit d = true →
        Lexer.read_number acc (p :: d :: rest) = Lexer.read_number (acc ++ [p]) (d :: rest)) ∧
    (∀ (acc : List Char) (p : Char) (rest : List Char),
        Lexer.punctFromChar p = some .Dot → isAsciiDigit (rest.headD '\x00') = false →
        Lexer.read_number acc (p :: rest) = (.NumberWithDot ⟨acc⟩, rest)) ∧
    (∀ (acc : List Char) (p : Char) (rest : List Char),
        Lexer.punctFromChar p = some .Comma → isAsciiDigit (rest.headD '\x00') = false →
        Lexer.read_number acc (p :: rest) = (.NumberWithComma ⟨acc⟩, rest)) ∧
    (∀ (acc : List Char) (c : Char) (rest : List Char),
        isAsciiDigit c = false → Lexer.punctFromChar c = none →
        Lexer.read_number acc (c :: rest) = (.Number ⟨acc⟩, c :: rest)) ∧
    (∀ c : Char, (Lexer.punctFromChar c).isSome = true ↔ (c = '.' ∨ c = ',')) :=
  ⟨fun acc d rest hd => read_number_digit acc hd rest,
   fun acc p d rest hp hd => read_number_punct_digit acc hp hd rest,
   fun acc p rest hp hnd => read_number_dot_end acc hp rest hnd,
   fun acc p rest hp hnd => read_number_comma_end acc hp rest hnd,
   fun acc c rest hc hp => read_number_stop acc hc hp rest,
   punct_iff⟩

/-- C2 witness: the step equations at concrete inputs. -/
theorem c2_read_number_witness :
    Lexer.read_number [] ('1' :: '.' :: '2' :: []) =
      Lexer.read_number ['1'] ('.' :: '2' :: []) ∧
    Lexer.read_number ['1'] ('.' :: '2' :: []) = Lexer.read_number ['1', '.'] ('2' :: []) ∧
    Lexer.read_number ['1'] ('.' :: 'x' :: []) = (.NumberWithDot ⟨['1']⟩, 'x' :: []) ∧
    Lexer.read_number ['1'] (',' :: 'x' :: []) = (.NumberWithComma ⟨['1']⟩, 'x' :: []) ∧
    Lexer.read_number ['1'] ('x' :: []) = (.Number ⟨['1']⟩, 'x' :: []) ∧
    ((Lexer.punctFromChar '.').isSome = true ↔ ('.' = '.' ∨ '.' = ',')) :=
  ⟨c2_read_number.1 [] '1' ('.' :: '2' :: []) (by decide),
   c2_read_number.2.1 ['1'] '.' '2' [] (by decide) (by decide),
   c2_read_number.2.2.1 ['1'] '.' ('x' :: []) (by decide) (by decide),
   c2_read_number.2.2.2.1 ['1'] ',' ('x' :: []) (by decide) (by decide),
   c2_read_number.2.2.2.2.1 ['1'] 'x' [] (by decide) (by decide),
   c2_read_number.2.2.2.2.2 '.'⟩

/-- C2 counterexample: `1.2.3` IS lexed as the single `Number` token
`"1.2.3"`, which contains two `.` characters. -/
theorem c2_counterexample :
    Lexer.next_token false ('1' :: '.' :: '2' :: '.' :: '3' :: []) =
      (.Number ⟨'1' :: '.' :: '2' :: '.' :: '3' :: []⟩, []) ∧
    (('1' :: '.' :: '2' :: '.' :: '3' :: []).filter
        (fun c => (Lexer.punctFromChar c).isSome)).length = 2 := by
  constructor
  · rfl
  · decide

end Latex2mmlc
namespace Latex2mmlc

/-- The lookahead tokens that the `\not` arm accepts. -/
def notArmSupported : Token → Bool
  | .Operator _ => true
  | .OpLessThan => true
  | .OpGreaterThan => true
  | .Letter _ => true
  | .NormalLetter _ => true
  | _ => false

/-- C3 (amended): after `\not`, an `Operator(op)` lookahead yields
`Operator((get_negated_op op).getD op)` — the negated form when the
table has one, the operator UNCHANGED otherwise (no error, refuting the
unamended claim, see `c3_counterexample`); `<`/`>` yield `≮`/`≯`; a
letter yields a `MultiLetterIdent` of the letter followed by U+0338; and
every unsupported lookahead yields `CannotBeUsedHere`. -/
theorem c3_not_arm :
    (∀ (n : Nat) (op : Op) (s : PState), s.peek = .Operator op →
        not_arm (n + 1) s =
          pushNode (.Operator ((get_negated_op op).getD op) none) (stepToken s)) ∧
    (∀ (n : Nat) (s : PState), s.peek = .OpLessThan →
        not_arm (n + 1) s = pushNode (.Operator ops.NOT_LESS_THAN none) (stepToken s)) ∧
    (∀ (n : Nat) (s : PState), s.peek = .OpGreaterThan →
        not_arm (n + 1) s = pushNode (.Operator ops.NOT_GREATER_THAN none) (stepToken s)) ∧
    (∀ (n : Nat) (c : Char) (s : PState), s.peek = .Letter c →
        not_arm (n + 1) s =
          PM.bind (bufExtend [c, '̸'])
            (fun sr => pushNode (.MultiLetterIdent sr)) (stepToken s)) ∧
    (∀ (n : Nat) (c : Char) (s : PState), s.peek = .NormalLetter c →
        not_arm (n + 1) s =
          PM.bind (bufExtend [c, '̸'])
            (fun sr => pushNode (.MultiLetterIdent sr)) (stepToken s)) ∧
    (∀ (n : Nat) (s : PState), notArmSupported s.peek = false →
        not_arm (n + 1) s =
          some (.error (.CannotBeUsedHere .Not "before supported operators"))) := by
  refine ⟨fun n op s h => ?_, fun n s h => ?_, fun n s h => ?_,
    fun n c s h => ?_, fun n c s h => ?_, fun n s h => ?_⟩
  · simp only [not_arm, peekToken, next_token, Bind.bind, PM.bind, h]
    cases hg : get_negated_op op <;> simp [hg]
  · simp only [not_arm, peekToken, next_token, Bind.bind, PM.bind, h]
  · simp only [not_arm, peekToken, next_token, Bind.bind, PM.bind, h]
  · simp only [not_arm, peekToken, next_token, Bind.bind, PM.bind, h]
  · simp only [not_arm, peekToken, next_token, Bind.bind, PM.bind, h]
  · cases hp : s.peek <;> rw [hp] at h <;>
      simp only [notArmSupported, Bool.true_eq_false] at h <;>
      simp only [not_arm, peekToken, next_token, Bind.bind, PM.bind, PM.throw, hp]

/-- C3 witness: the `\not` arm at a concrete state for each accepted
lookahead shape and for an unsupported one. -/
theorem c3_not_arm_witness :
    not_arm 1 ⟨[], .Operator '+', [], []⟩ =
      pushNode (.Operator ((get_negated_op '+').getD '+') none)
        (stepToken ⟨[], .Operator '+', [], []⟩) ∧
    not_arm 1 ⟨[], .OpLessThan, [], []⟩ =
      pushNode (.Operator ops.NOT_LESS_THAN none) (stepToken ⟨[], .OpLessThan, [], []⟩) ∧
    not_arm 1 ⟨[], .OpGreaterThan, [], []⟩ =
      pushNode (.Operator ops.NOT_GREATER_THAN none)
        (stepToken ⟨[], .OpGreaterThan, [], []⟩) ∧
    not_arm 1 ⟨[], .Letter 'a', [], []⟩ =
      PM.bind (bufExtend ['a', '̸'])
        (fun sr => pushNode (.MultiLetterIdent sr)) (stepToken ⟨[], .Letter 'a', [], []⟩) ∧
    not_arm 1 ⟨[], .NormalLetter 'a', [], []⟩ =
      PM.bind (bufExtend ['a', '̸'])
        (fun sr => pushNode (.MultiLetterIdent sr))
        (stepToken ⟨[], .NormalLetter 'a', [], []⟩) ∧
    not_arm 1 ⟨[], .EOF, [], []⟩ =
      some (.error (.CannotBeUsedHere .Not "before supported operators")) :=
  ⟨c3_not_arm.1 0 '+' _ rfl,
   c3_not_arm.2.1 0 _ rfl,
   c3_not_arm.2.2.1 0 _ rfl,
   c3_not_arm.2.2.2.1 0 'a' _ rfl,
   c3_not_arm.2.2.2.2.1 0 'a' _ rfl,
   c3_not_arm.2.2.2.2.2 0 _ (by decide)⟩

/-- C3 counterexample: `\not+` — the operator `+` has no canonical
negated form, yet the parser does NOT report an error: it emits the
operator unchanged. -/
theorem c3_counterexample :
    get_negated_op '+' = none ∧
    latexToTree 8 "\\not+".data = some (.ok (.PseudoRow [.Operator '+' none])) ∧
    ∀ E : LatexError, latexToTree 8 "\\not+".data ≠ some (.error E) := by
  refine ⟨rfl, rfl, fun E h => ?_⟩
  rw [show latexToTree 8 "\\not+".data =
      some (.ok (.PseudoRow [.Operator '+' none])) from rfl] at h
  simp at h


/-- C8: conversion is deterministic — two runs of `latex_to_mathml` on
the same input, display mode, and pretty flag (each over a fresh arena
and buffer: the state is built from the input alone) return the same
result, byte-identical output on success and the same error on
failure. -/
theorem c8_deterministic (fuel : Nat) (latex : List Char) (display : Display)
    (pretty : Bool) (r₁ r₂ : Option (Except LatexError String))
    (h₁ : r₁ = latex_to_mathml fuel latex display pretty)
    (h₂ : r₂ = latex_to_mathml fuel latex display pretty) : r₁ = r₂ :=
  h₁.trans h₂.symm

/-- C8 witness: two runs on input `x` (inline, pretty) agree, and the
common value is the concrete serialised MathML string. -/
theorem c8_deterministic_witness :
    latex_to_mathml 8 ['x'] .Inline true = latex_to_mathml 8 ['x'] .Inline true ∧
    latex_to_mathml 8 ['x'] .Inline true = some (.ok ("<math><mi>x</mi>\n</math>")) :=
  ⟨c8_deterministic 8 ['x'] .Inline true _ _ rfl rfl, rfl⟩

end Latex2mmlc
namespace Latex2mmlc

/-- A bad escape (backslash followed by anything but a brace) makes the
text reader fail, wherever it occurs after a plain prefix. -/
theorem rtc_go_bad_escape (pre : List Char) (h : plainName pre = true)
    {c : Char} (hc1 : c ≠ '{') (hc2 : c ≠ '}') (rest : List Char) :
    ∀ (acc : List Char) (depth : Nat),
      Lexer.read_text_content_go acc depth (pre ++ '\\' :: c :: rest) = none := by
  induction pre with
  | nil =>
    intro acc depth
    rw [Lexer.read_text_content_go.eq_def]
    simp [hc1, hc2]
  | cons p pre' ih =>
    have h' : ((((p = '{' → False) ∧ (p = '}' → False)) ∧ (p = '\\' → False)) ∧
        (p = '\x00' → False)) ∧ plainName pre' = true := by
      simpa [plainName, not_or] using h
    obtain ⟨⟨⟨⟨h1, h2⟩, h3⟩, h4⟩, h5⟩ := h'
    intro acc depth
    simp only [List.cons_append]
    rw [Lexer.read_text_content_go.eq_def]
    simp only []
    rw [if_neg h1, if_neg h2, if_neg h3, if_neg h4]
    exact ih h5 (acc ++ [p]) depth

/-- Successful text reads consume exactly the returned content plus the
closing brace: the input splits as content, `}`, leftover. -/
theorem rtc_go_success (N : Nat) : ∀ (s : List Char), s.length ≤ N →
    ∀ (acc : List Char) (depth : Nat) (out : String) (rest : List Char),
      Lexer.read_text_content_go acc depth s = some (out, rest) →
      ∃ mid, s = mid ++ '}' :: rest ∧ out = ⟨acc ++ mid⟩ := by
  induction N with
  | zero =>
    intro s hlen acc depth out rest hgo
    have : s = [] := List.length_eq_zero.mp (Nat.le_zero.mp hlen)
    subst this
    rw [Lexer.read_text_content_go.eq_def] at hgo
    simp at hgo
  | succ n ih =>
    intro s hlen acc depth out rest hgo
    cases s with
    | nil =>
      rw [Lexer.read_text_content_go.eq_def] at hgo
      simp at hgo
    | cons c s' =>
      have hlen' : s'.length ≤ n := by simp at hlen; omega
      rw [Lexer.read_text_content_go.eq_def] at hgo
      simp only [] at hgo
      by_cases h1 : c = '{'
      · rw [if_pos h1] at hgo
        obtain ⟨mid, hmid, hout⟩ := ih s' hlen' _ _ _ _ hgo
        exact ⟨c :: mid, by rw [hmid]; simp, by rw [hout]; simp⟩
      · rw [if_neg h1] at hgo
        by_cases h2 : c = '}'
        · rw [if_pos h2] at hgo
          by_cases h3 : depth ≤ 1
          · rw [if_pos h3] at hgo
            simp only [Option.some.injEq, Prod.mk.injEq] at hgo
            obtain ⟨hout, hrest⟩ := hgo
            exact ⟨[], by simp [h2, hrest], by rw [← hout]; simp⟩
          · rw [if_neg h3] at hgo
            obtain ⟨mid, hmid, hout⟩ := ih s' hlen' _ _ _ _ hgo
            exact ⟨c :: mid, by rw [hmid]; simp, by rw [hout]; simp⟩
        · rw [if_neg h2] at hgo
          by_cases h3 : c = '\\'
          · rw [if_pos h3] at hgo
            cases s' with
            | nil => simp at hgo
            | cons d rest' =>
              simp only [] at hgo
              have hlen'' : rest'.length ≤ n := by simp at hlen; omega
              by_cases h4 : (d = '{' || d = '}') = true
              · rw [if_pos h4] at hgo
                obtain ⟨mid, hmid, hout⟩ := ih rest' hlen'' _ _ _ _ hgo
                refine ⟨c :: d :: mid, by rw [hmid]; simp, by rw [hout]; simp⟩
              · rw [if_neg h4] at hgo
                simp at hgo
          · rw [if_neg h3] at hgo
            by_cases h5 : c = '\x00'
            · rw [if_pos h5] at hgo
              simp at hgo
            · rw [if_neg h5] at hgo
              obtain ⟨mid, hmid, hout⟩ := ih s' hlen' _ _ _ _ hgo
              exact ⟨c :: mid, by rw [hmid]; simp, by rw [hout]; simp⟩

/-- Successful `read_text_content` splits the input as content, closing
brace, leftover. -/
theorem rtc_success (s : List Char) (out : String) (rest : List Char)
    (h : Lexer.read_text_content s = some (out, rest)) :
    ∃ mid, s = mid ++ '}' :: rest ∧ out = ⟨mid⟩ := by
  obtain ⟨mid, hmid, hout⟩ :=
    rtc_go_success s.length s (Nat.le_refl _) [] 1 out rest h
  exact ⟨mid, hmid, by simpa using hout⟩

/-- Without a closing brace anywhere, the text reader fails. -/
theorem rtc_no_close (s : List Char) (h : '}' ∉ s) :
    Lexer.read_text_content s = none := by
  cases hr : Lexer.read_text_content s with
  | none => rfl
  | some pr =>
    obtain ⟨mid, hmid, _⟩ := rtc_success s pr.1 pr.2 (by rw [hr])
    rw [hmid] at h
    simp at h
end Latex2mmlc
namespace Latex2mmlc

/-- C9: the text-group reader fails (`none`) on a backslash escape other
than `\{`/`\}` — even if the group is later properly closed — and on
input with no closing `}` at all; every success splits the input as
content, `}`, leftover (so a success always has its closing brace); and
a failing read makes `parse_text_group` report `UnclosedGroup`. -/
theorem c9_text_group :
    (∀ (pre : List Char), plainName pre = true → ∀ (c : Char), c ≠ '{' → c ≠ '}' →
        ∀ (rest : List Char),
          Lexer.read_text_content (pre ++ '\\' :: c :: rest) = none) ∧
    (∀ (s : List Char), '}' ∉ s → Lexer.read_text_content s = none) ∧
    (∀ (s : List Char) (out : String) (rest : List Char),
        Lexer.read_text_content s = some (out, rest) →
        ∃ mid, s = mid ++ '}' :: rest ∧ out = ⟨mid⟩) ∧
    (∀ st : PState, Lexer.read_text_content st.lex = none →
        parse_text_group st = some (.error (.UnclosedGroup .GroupEnd))) :=
  ⟨fun pre h c hc1 hc2 rest => rtc_go_bad_escape pre h hc1 hc2 rest [] 1,
   rtc_no_close,
   rtc_success,
   fun st h => by simp [parse_text_group, h]⟩

/-- C9 witness: `ab\n}` and `ab` (unclosed) fail; `a}x` succeeds and
splits as content `a`, brace, leftover `x`; a state about to read `\a`
gets `UnclosedGroup` from `parse_text_group`. -/
theorem c9_text_group_witness :
    Lexer.read_text_content (('a' :: 'b' :: []) ++ '\\' :: 'n' :: '}' :: []) = none ∧
    Lexer.read_text_content ('a' :: 'b' :: []) = none ∧
    (∃ mid, ('a' :: '}' :: 'x' :: []) = mid ++ '}' :: 'x' :: [] ∧ ("a" : String) = ⟨mid⟩) ∧
    parse_text_group ⟨'\\' :: 'a' :: [], .GroupBegin, [], []⟩ =
      some (.error (.UnclosedGroup .GroupEnd)) :=
  ⟨c9_text_group.1 ('a' :: 'b' :: []) (by decide) 'n' (by decide) (by decide) ('}' :: []),
   c9_text_group.2.1 ('a' :: 'b' :: []) (by decide),
   c9_text_group.2.2.1 ('a' :: '}' :: 'x' :: []) "a" ('x' :: []) rfl,
   c9_text_group.2.2.2 ⟨'\\' :: 'a' :: [], .GroupBegin, [], []⟩ rfl⟩

end Latex2mmlc
namespace Latex2mmlc

set_option maxHeartbeats 2000000 in
/-- A `\genfrac` whose line-thickness text does not trim to the empty
string or to `0pt` is rejected as `UnexpectedEOF`, whatever follows. -/
theorem genfrac_thickness_reject (T : List Char) (h : plainName T = true)
    (h1 : rustTrim ⟨T⟩ ≠ "") (h2 : rustTrim ⟨T⟩ ≠ "0pt") (rest : List Char) :
    latexToAst 12 ("\\genfrac()".data ++ '{' :: T ++ '}' :: rest) =
      some (.error .UnexpectedEOF) := by
  have hgf : Lexer.get_command ⟨['g', 'e', 'n', 'f', 'r', 'a', 'c']⟩ = Token.Genfrac := rfl
  simp only [latexToAst, parse, Parser.new, stepToken, lex_backslash, lex_lparen, lex_rparen,
    lex_lbrace, hgf, read_text_content_plain T h, String.data,
    parseLoop, parse_node, parse_single_node, genfrac_arm, parse_token,
    get_bounds, get_bounds_go, get_sub_or_sub, finishPrimes, Builder.is_empty,
    check_lbrace, parse_text_group, getNode,
    next_token, peekToken, pushNode, Bind.bind, PM.bind, Pure.pure, PM.pure, PM.throw,
    Lexer.read_command, List.takeWhile, List.dropWhile, List.get?,
    isAsciiAlphabetic, isAsciiDigit, isAsciiGraphic, isAsciiWhitespace,
    Token.acts_on_a_digit, h1, h2, ne_eq,
    Char.reduceEq, Char.reduceLE, decide_False, decide_True,
    Bool.false_or, Bool.or_false, Bool.true_or, Bool.or_true, Bool.false_and,
    Bool.true_and, Bool.and_false, Bool.and_true, Bool.not_true, Bool.not_false,
    decide_eq_true_eq, if_false, if_true, reduceCtorEq, eq_self_iff_true, Option.isNone,
    Builder.finish, Builder.push_ref, Builder.push, Builder.is_empty,
    Nat.reduceAdd, Nat.reduceSub, Nat.add_eq, Nat.add_zero, Nat.zero_add,
    List.cons_append, List.nil_append, List.append_nil, List.singleton_append]

end Latex2mmlc
namespace Latex2mmlc

/-- C10 (amended): each malformed `\genfrac` argument is reported as
`UnexpectedEOF` even though the input goes on — a group of two letters
as opening or closing delimiter, a line thickness that does not TRIM to
the empty string or `0pt` (the comparison is after Rust `str::trim`,
refuting the unamended claim, see `c10_counterexample`), and a style
number outside `0..=3`. -/
theorem c10_genfrac_errors :
    latexToTree 40 "\\genfrac{ab}{)}{0pt}{0}{1}{2}".data =
      some (.error .UnexpectedEOF) ∧
    latexToTree 40 "\\genfrac({xy}{0pt}{0}{1}{2}".data =
      some (.error .UnexpectedEOF) ∧
    (∀ (T : List Char), plainName T = true →
      rustTrim ⟨T⟩ ≠ "" → rustTrim ⟨T⟩ ≠ "0pt" → ∀ (rest : List Char),
      latexToAst 12 ("\\genfrac()".data ++ '{' :: T ++ '}' :: rest) =
        some (.error .UnexpectedEOF)) ∧
    latexToTree 40 "\\genfrac(){0pt}{4}{1}{2}".data =
      some (.error .UnexpectedEOF) :=
  ⟨rfl, rfl,
   fun T h h1 h2 rest => genfrac_thickness_reject T h h1 h2 rest,
   rfl⟩

/-- C10 witness: the thickness rejection at the concrete text `1pt`. -/
theorem c10_genfrac_errors_witness :
    latexToAst 12 ("\\genfrac()".data ++ '{' :: ('1' :: 'p' :: 't' :: []) ++ '}' :: []) =
      some (.error .UnexpectedEOF) :=
  c10_genfrac_errors.2.2.1 ('1' :: 'p' :: 't' :: []) (by decide) (by decide) (by decide) []

/-- C10 counterexample: the thickness text ` 0pt` (leading space) is
neither the empty string nor `0pt`, yet `\genfrac(){ 0pt}{0}{1}{2}` is
accepted — the parser compares after trimming. -/
theorem c10_counterexample :
    latexToTree 40 "\\genfrac(){ 0pt}{0}{1}{2}".data =
      some (.ok (.PseudoRow [.Fenced '(' ')'
        (.Frac (.Number ("1")) (.Number ("2")) (some '0') none)
        (some Style.DisplayStyle)])) ∧
    rustTrim " 0pt" = "0pt" ∧
    (" 0pt" : String) ≠ "" ∧ (" 0pt" : String) ≠ "0pt" ∧
    ∀ E : LatexError, latexToTree 40 "\\genfrac(){ 0pt}{0}{1}{2}".data ≠
      some (.error E) := by
  refine ⟨rfl, rfl, by decide, by decide, fun E h => ?_⟩
  rw [show latexToTree 40 "\\genfrac(){ 0pt}{0}{1}{2}".data =
      some (.ok (.PseudoRow [.Fenced '(' ')'
        (.Frac (.Number ("1")) (.Number ("2")) (some '0') none)
        (some Style.DisplayStyle)])) from rfl] at h
  simp at h

end Latex2mmlc
namespace Latex2mmlc

/-- The arena never shrinks across a parser computation. -/
structure Grows {α : Type} (m : PM α) : Prop where
  mono : ∀ (s : PState) (a : α) (s' : PState),
    m s = some (.ok (a, s')) → s.arena.length ≤ s'.arena.length

theorem grows_pure {α : Type} (a : α) : Grows (PM.pure a) :=
  ⟨fun s b s' h => by
    simp only [PM.pure, Option.some.injEq, Except.ok.injEq, Prod.mk.injEq] at h
    rw [← h.2]⟩

theorem grows_throw {α : Type} (e : LatexError) : Grows (PM.throw e : PM α) :=
  ⟨fun s b s' h => by simp [PM.throw] at h⟩

theorem grows_outOfFuel {α : Type} : Grows (PM.outOfFuel : PM α) :=
  ⟨fun s b s' h => by simp [PM.outOfFuel] at h⟩

theorem grows_bind {α β : Type} {x : PM α} {f : α → PM β}
    (hx : Grows x) (hf : ∀ a, Grows (f a)) : Grows (PM.bind x f) :=
  ⟨fun s a s' h => by
    simp only [PM.bind] at h
    cases hx' : x s with
    | none => rw [hx'] at h; simp at h
    | some r =>
      cases r with
      | error e => rw [hx'] at h; simp at h
      | ok p =>
        obtain ⟨b, t⟩ := p
        rw [hx'] at h
        simp only [] at h
        exact Nat.le_trans (hx.mono s b t hx') ((hf b).mono t a s' h)⟩

theorem grows_bindB {α β : Type} {x : PM α} {f : α → PM β}
    (hx : Grows x) (hf : ∀ a, Grows (f a)) : Grows (Bind.bind x f) :=
  grows_bind hx hf

theorem grows_ite {α : Type} {c : Prop} [Decidable c] {x y : PM α}
    (hx : Grows x) (hy : Grows y) : Grows (if c then x else y) := by
  split
  · exact hx
  · exact hy

theorem grows_next_token : Grows next_token :=
  ⟨fun s a s' h => by
    simp only [next_token, Option.some.injEq, Except.ok.injEq, Prod.mk.injEq] at h
    rw [← h.2]
    exact Nat.le_refl _⟩

theorem grows_peekToken : Grows peekToken :=
  ⟨fun s a s' h => by
    simp only [peekToken, Option.some.injEq, Except.ok.injEq, Prod.mk.injEq] at h
    rw [← h.2]⟩

theorem grows_pushNode (n : Node) : Grows (pushNode n) :=
  ⟨fun s a s' h => by
    simp only [pushNode, Option.some.injEq, Except.ok.injEq, Prod.mk.injEq] at h
    rw [← h.2]
    simp⟩

theorem grows_getNode (r : NodeRef) : Grows (getNode r) :=
  ⟨fun s a s' h => by
    simp only [getNode] at h
    cases hg : s.arena.get? r with
    | none => rw [hg] at h; simp at h
    | some e =>
      rw [hg] at h
      simp only [Option.some.injEq, Except.ok.injEq, Prod.mk.injEq] at h
      rw [← h.2]⟩

theorem grows_setNodeAt (r : NodeRef) (n : Node) : Grows (setNodeAt r n) :=
  ⟨fun s a s' h => by
    simp only [setNodeAt] at h
    cases hg : s.arena.get? r with
    | none => rw [hg] at h; simp at h
    | some e =>
      rw [hg] at h
      simp only [Option.some.injEq, Except.ok.injEq, Prod.mk.injEq] at h
      rw [← h.2]
      simp⟩

theorem grows_getNextAt (r : NodeRef) : Grows (getNextAt r) :=
  ⟨fun s a s' h => by
    simp only [getNextAt] at h
    cases hg : s.arena.get? r with
    | none => rw [hg] at h; simp at h
    | some e =>
      rw [hg] at h
      simp only [Option.some.injEq, Except.ok.injEq, Prod.mk.injEq] at h
      rw [← h.2]⟩

theorem grows_setNextAt (r : NodeRef) (nx : Option NodeRef) : Grows (setNextAt r nx) :=
  ⟨fun s a s' h => by
    simp only [setNextAt] at h
    cases hg : s.arena.get? r with
    | none => rw [hg] at h; simp at h
    | some e =>
      rw [hg] at h
      simp only [Option.some.injEq, Except.ok.injEq, Prod.mk.injEq] at h
      rw [← h.2]
      simp⟩

theorem grows_bufEnd : Grows bufEnd :=
  ⟨fun s a s' h => by
    simp only [bufEnd, Option.some.injEq, Except.ok.injEq, Prod.mk.injEq] at h
    rw [← h.2]⟩

theorem grows_bufPushStr (str : String) : Grows (bufPushStr str) :=
  ⟨fun s a s' h => by
    simp only [bufPushStr, Option.some.injEq, Except.ok.injEq, Prod.mk.injEq] at h
    rw [← h.2]⟩

theorem grows_bufExtend (cs : List Char) : Grows (bufExtend cs) :=
  ⟨fun s a s' h => by
    simp only [bufExtend, Option.some.injEq, Except.ok.injEq, Prod.mk.injEq] at h
    rw [← h.2]⟩

theorem grows_bufPush (c : Char) : Grows (bufPush c) :=
  ⟨fun s a s' h => by
    simp only [bufPush, Option.some.injEq, Except.ok.injEq, Prod.mk.injEq] at h
    rw [← h.2]⟩

theorem grows_parse_text_group : Grows parse_text_group :=
  ⟨fun s a s' h => by
    simp only [parse_text_group] at h
    cases hr : Lexer.read_text_content s.lex with
    | none => rw [hr] at h; simp at h
    | some pr =>
      rw [hr] at h
      simp only [Option.some.injEq, Except.ok.injEq, Prod.mk.injEq] at h
      rw [← h.2]⟩

end Latex2mmlc
namespace Latex2mmlc

theorem grows_push_ref (b : Builder) (r : NodeRef) : Grows (Builder.push_ref b r) := by
  unfold Builder.push_ref
  split
  · exact grows_pure _
  · exact grows_bindB (grows_setNextAt _ _) (fun _ => grows_pure _)

theorem grows_bpush (b : Builder) (n : Node) : Grows (Builder.push b n) := by
  unfold Builder.push
  exact grows_bindB (grows_pushNode _) (fun r => grows_push_ref b r)

theorem grows_set_end (b : Builder) : Grows (Builder.set_end b) := by
  unfold Builder.set_end
  split
  · exact grows_pure _
  · exact grows_setNextAt _ _

theorem grows_squeeze (b : Builder) (st : Option Style) : Grows (squeeze b st) := by
  unfold squeeze
  split
  · exact grows_pure _
  · exact grows_pushNode _

theorem grows_finishPrimes (primes : Builder) (sub sup : Option NodeRef) :
    Grows (finishPrimes primes sub sup) := by
  unfold finishPrimes
  refine grows_ite (grows_pure _) ?_
  simp only []
  split
  · exact grows_bindB (grows_push_ref _ _) fun p =>
      grows_bindB (grows_squeeze _ _) fun r => grows_pure _
  · exact grows_bindB (grows_pure _) fun p =>
      grows_bindB (grows_squeeze _ _) fun r => grows_pure _

theorem grows_collectorFinish (c : LetterCollector) : Grows (collectorFinish c) := by
  unfold collectorFinish
  refine grows_bindB grows_bufEnd fun e => grows_ite ?_ (grows_pure _)
  exact grows_bindB (grows_setNodeAt _ _) fun _ => grows_pure _

theorem grows_check_lbrace : Grows check_lbrace := by
  unfold check_lbrace
  exact grows_bindB grows_peekToken fun p =>
    grows_ite (grows_pure _) (grows_bindB grows_next_token fun t => grows_throw _)

theorem grows_colon_arm : Grows colon_arm := by
  unfold colon_arm
  refine grows_bindB grows_peekToken fun p => ?_
  split
  · refine grows_ite ?_ (grows_pushNode _)
    exact grows_bindB grows_next_token fun _ => grows_bindB (grows_bpush _ _) fun b =>
      grows_bindB (grows_bpush _ _) fun b => grows_pushNode _
  · exact grows_pushNode _

theorem grows_middle_arm : Grows middle_arm := by
  unfold middle_arm
  refine grows_bindB grows_next_token fun t => ?_
  split
  · exact grows_pushNode _
  · exact grows_pushNode _
  · exact grows_pushNode _
  · exact grows_throw _

theorem grows_big_arm (size : String) : Grows (big_arm size) := by
  unfold big_arm
  refine grows_bindB grows_next_token fun t => ?_
  split
  · exact grows_pushNode _
  · exact grows_pushNode _
  · exact grows_throw _

end Latex2mmlc
namespace Latex2mmlc

/-- Arena monotonicity for every function of the parser's mutual
recursion block, at a given fuel. -/
structure GrowsAll (n : Nat) : Prop where
  loop : ∀ b, Grows (parseLoop n b)
  node : ∀ t, Grows (parse_node n t)
  tok : Grows (parse_token n)
  stok : Grows (parse_single_token n)
  group : ∀ t b, Grows (parse_group_go n t b)
  table : ∀ a, Grows (parse_table n a)
  gbgo : ∀ b, Grows (get_bounds_go n b)
  gb : Grows (get_bounds n)
  gss : Grows (get_sub_or_sub n)
  snv : ∀ r, Grows (set_normal_variant n r)
  snvl : ∀ l, Grows (snvList n l)
  tfl : ∀ r t, Grows (transform_letters n r t)
  tfll : ∀ l t, Grows (tfList n l t)
  msl : ∀ l lb c, Grows (msl_go n l lb c)
  merge : ∀ l st, Grows (merge_single_letters n l st)
  exl : ∀ d, Grows (extract_letters n d)
  ell : ∀ l, Grows (elList n l)
  sqrt : Grows (sqrt_arm n)
  frac : ∀ d, Grows (frac_arm n d)
  binom : ∀ d, Grows (binom_arm n d)
  genfrac : Grows (genfrac_arm n)
  brace : ∀ x b, Grows (brace_arm n x b)
  bigop : ∀ o, Grows (bigop_arm n o)
  lim : ∀ l, Grows (lim_arm n l)
  notA : Grows (not_arm n)
  nv : Grows (normal_variant_arm n)
  tr : ∀ t, Grows (transform_arm n t)
  intg : ∀ o, Grows (integral_arm n o)
  left : Grows (left_arm n)
  beginA : Grows (begin_arm n)
  opname : Grows (operatorname_arm n)
  single : ∀ t, Grows (parse_single_node n t)

theorem grows_all : ∀ n : Nat, GrowsAll n := by
  intro n
  induction n with
  | zero =>
    exact ⟨fun b => grows_outOfFuel, fun t => grows_outOfFuel, grows_outOfFuel,
      grows_outOfFuel, fun t b => grows_outOfFuel, fun a => grows_outOfFuel,
      fun b => grows_outOfFuel, grows_outOfFuel, grows_outOfFuel,
      fun r => grows_outOfFuel, fun l => grows_outOfFuel, fun r t => grows_outOfFuel,
      fun l t => grows_outOfFuel, fun l lb c => grows_outOfFuel,
      fun l st => grows_outOfFuel, fun d => grows_outOfFuel, fun l => grows_outOfFuel,
      grows_outOfFuel, fun d => grows_outOfFuel, fun d => grows_outOfFuel,
      grows_outOfFuel, fun x b => grows_outOfFuel, fun o => grows_outOfFuel,
      fun l => grows_outOfFuel, grows_outOfFuel, grows_outOfFuel,
      fun t => grows_outOfFuel, fun o => grows_outOfFuel, grows_outOfFuel,
      grows_outOfFuel, grows_outOfFuel, fun t => grows_outOfFuel⟩
  | succ n ih =>
    refine ⟨?_, ?_, ?_, ?_, ?_, ?_, ?_, ?_, ?_, ?_, ?_, ?_, ?_, ?_, ?_, ?_, ?_,
      ?_, ?_, ?_, ?_, ?_, ?_, ?_, ?_, ?_, ?_, ?_, ?_, ?_, ?_, ?_⟩
    -- parseLoop
    · intro b
      simp only [parseLoop]
      exact grows_bindB grows_next_token fun cur => grows_ite (grows_pure _)
        (grows_bindB (ih.node cur) fun nd => grows_bindB (grows_push_ref _ _)
          fun b' => ih.loop b')
    -- parse_node
    · intro t
      simp only [parse_node]
      refine grows_bindB (ih.single t) fun left => grows_bindB ih.gb fun b => ?_
      split
      · exact grows_pushNode _
      · exact grows_pushNode _
      · exact grows_pushNode _
      · exact grows_pure _
    -- parse_token
    · simp only [parse_token]
      exact grows_bindB grows_next_token fun t => ih.node t
    -- parse_single_token
    · simp only [parse_single_token]
      exact grows_bindB grows_next_token fun t => ih.single t
    -- parse_group_go
    · intro endT nodes
      simp only [parse_group_go]
      exact grows_bindB grows_peekToken fun p => grows_ite (grows_pure _)
        (grows_bindB grows_next_token fun t => grows_ite (grows_throw _)
          (grows_bindB (ih.node t) fun nd => grows_bindB (grows_push_ref _ _)
            fun nodes' => ih.group endT nodes'))
    -- parse_table
    · intro a
      simp only [parse_table]
      exact grows_bindB (ih.group _ _) fun content => grows_bindB grows_next_token
        fun _ => grows_pure _
    -- get_bounds_go
    · intro primes
      simp only [get_bounds_go]
      refine grows_bindB grows_peekToken fun p => grows_ite ?_ ?_
      · exact grows_bindB grows_next_token fun _ => grows_bindB (grows_bpush _ _)
          fun primes' => ih.gbgo primes'
      · refine grows_ite ?_ (grows_finishPrimes _ _ _)
        refine grows_bindB ih.gss fun fb => grows_bindB grows_peekToken fun q => ?_
        refine grows_ite (grows_bindB grows_next_token fun t => grows_throw _) ?_
        refine grows_ite (grows_bindB ih.gss fun sb => grows_ite
          (grows_finishPrimes _ _ _) (grows_finishPrimes _ _ _)) ?_
        exact grows_ite (grows_finishPrimes _ _ _) (grows_finishPrimes _ _ _)
    -- get_bounds
    · simp only [get_bounds]
      exact ih.gbgo none
    -- get_sub_or_sub
    · simp only [get_sub_or_sub]
      exact grows_bindB grows_next_token fun _ => grows_bindB grows_next_token fun t =>
        grows_ite (grows_throw _) (ih.single t)
    -- set_normal_variant
    · intro r
      simp only [set_normal_variant]
      refine grows_bindB (grows_getNode r) fun nd => ?_
      split
      · exact grows_setNodeAt _ _
      · exact ih.snvl _
      · exact grows_pure _
    -- snvList
    · intro l
      cases l with
      | none => simp only [snvList]; exact grows_pure _
      | some cur =>
        simp only [snvList]
        exact grows_bindB (grows_getNextAt _) fun nx =>
          grows_bindB (ih.snv cur) fun _ => ih.snvl nx
    -- transform_letters
    · intro r t
      simp only [transform_letters]
      refine grows_bindB (grows_getNode r) fun nd => ?_
      split
      · exact grows_setNodeAt _ _
      · exact grows_setNodeAt _ _
      · exact ih.tfll _ _
      · exact grows_pure _
    -- tfList
    · intro l t
      cases l with
      | none => simp only [tfList]; exact grows_pure _
      | some cur =>
        simp only [tfList]
        exact grows_bindB (grows_getNextAt _) fun nx =>
          grows_bindB (ih.tfl cur t) fun _ => ih.tfll nx t
    -- msl_go
    · intro l lb c
      cases l with
      | none =>
        simp only [msl_go]
        split
        · exact grows_bindB (grows_collectorFinish _) fun r => grows_push_ref _ _
        · exact grows_pure _
      | some cur =>
        simp only [msl_go]
        refine grows_bindB (grows_getNextAt _) fun nx =>
          grows_bindB (grows_getNode _) fun nd => ?_
        split
        · refine grows_bindB ?_ fun coll' => grows_bindB (grows_bufPush _) fun _ =>
            ih.msl _ _ _
          split
          · exact grows_pure _
          · exact grows_bindB grows_bufEnd fun st => grows_pure _
        · refine grows_bindB ?_ fun lb' => grows_bindB (grows_push_ref _ _)
            fun lb'' => ih.msl _ _ _
          split
          · exact grows_bindB (grows_collectorFinish _) fun r => grows_push_ref _ _
          · exact grows_pure _
    -- merge_single_letters
    · intro l st
      simp only [merge_single_letters]
      exact grows_bindB (ih.msl _ _ _) fun lb => grows_bindB (grows_set_end _)
        fun _ => grows_squeeze _ _
    -- extract_letters
    · intro d
      simp only [extract_letters]
      split
      · exact grows_bufPush _
      · exact ih.ell _
      · exact grows_bindB (grows_bufPushStr _) fun _ => grows_pure _
      · exact grows_bufPush _
      · exact grows_bufPush _
      · exact grows_throw _
    -- elList
    · intro l
      cases l with
      | none => simp only [elList]; exact grows_pure _
      | some cur =>
        simp only [elList]
        exact grows_bindB (grows_getNextAt _) fun nx => grows_bindB (grows_getNode _)
          fun nd => grows_bindB (ih.exl nd) fun _ => ih.ell nx
    -- sqrt_arm
    · simp only [sqrt_arm]
      refine grows_bindB grows_next_token fun t => grows_ite ?_ ?_
      · exact grows_bindB (ih.group _ _) fun degree => grows_bindB grows_next_token
          fun _ => grows_bindB ih.tok fun content => grows_bindB (grows_squeeze _ _)
            fun d => grows_pushNode _
      · exact grows_bindB (ih.node t) fun content => grows_pushNode _
    -- frac_arm
    · intro d
      simp only [frac_arm]
      exact grows_bindB ih.tok fun numerator => grows_bindB ih.tok fun denominator =>
        grows_pushNode _
    -- binom_arm
    · intro d
      simp only [binom_arm]
      exact grows_bindB ih.tok fun numerator => grows_bindB ih.tok fun denominator =>
        grows_bindB (grows_pushNode _) fun inner => grows_pushNode _
    -- genfrac_arm
    · simp only [genfrac_arm]
      refine grows_bindB ih.tok fun r1 => grows_bindB (grows_getNode _) fun nd1 => ?_
      refine grows_bindB ?_ fun openOp => ?_
      · split
        · exact grows_pure _
        · exact grows_ite (grows_pure _) (grows_throw _)
        · exact grows_throw _
      refine grows_bindB ih.tok fun r2 => grows_bindB (grows_getNode _) fun nd2 => ?_
      refine grows_bindB ?_ fun closeOp => ?_
      · split
        · exact grows_pure _
        · exact grows_ite (grows_pure _) (grows_throw _)
        · exact grows_throw _
      refine grows_bindB grows_check_lbrace fun _ =>
        grows_bindB grows_parse_text_group fun thick => ?_
      refine grows_bindB (grows_ite (grows_pure _) (grows_ite (grows_pure _)
        (grows_throw _))) fun lt => ?_
      refine grows_bindB ih.tok fun r3 => grows_bindB (grows_getNode _) fun nd3 => ?_
      refine grows_bindB ?_ fun style => ?_
      · split
        · split
          · exact grows_pure _
          · exact grows_pure _
          · exact grows_pure _
          · exact grows_pure _
          · exact grows_throw _
        · exact grows_ite (grows_pure _) (grows_throw _)
        · exact grows_throw _
      exact grows_bindB ih.tok fun numerator => grows_bindB ih.tok fun denominator =>
        grows_bindB (grows_pushNode _) fun content => grows_pushNode _
    -- brace_arm
    · intro x b
      simp only [brace_arm]
      refine grows_bindB ih.stok fun target => grows_bindB grows_peekToken fun p =>
        grows_ite ?_ ?_
      · refine grows_bindB grows_next_token fun _ => grows_bindB ih.stok fun expl =>
          grows_bindB (grows_pushNode _) fun op => grows_ite ?_ ?_
        · exact grows_bindB (grows_pushNode _) fun symbol => grows_pushNode _
        · exact grows_bindB (grows_pushNode _) fun symbol => grows_pushNode _
      · exact grows_bindB (grows_pushNode _) fun symbol =>
          grows_ite (grows_pushNode _) (grows_pushNode _)
    -- bigop_arm
    · intro o
      simp only [bigop_arm]
      refine grows_bindB grows_peekToken fun p => ?_
      refine grows_bindB (grows_ite (grows_bindB grows_next_token fun _ =>
        grows_pushNode _) (grows_pushNode _)) fun target => ?_
      refine grows_bindB ih.gb fun b => ?_
      split
      · exact grows_pushNode _
      · exact grows_pushNode _
      · exact grows_pushNode _
      · exact grows_pushNode _
    -- lim_arm
    · intro l
      simp only [lim_arm]
      refine grows_bindB (grows_bufPushStr _) fun sr =>
        grows_bindB grows_peekToken fun p => grows_ite ?_ (grows_pushNode _)
      exact grows_bindB grows_next_token fun _ => grows_bindB ih.stok fun under =>
        grows_bindB (grows_pushNode _) fun target => grows_pushNode _
    -- not_arm
    · simp only [not_arm]
      refine grows_bindB grows_peekToken fun p => ?_
      split
      · refine grows_bindB grows_next_token fun _ => ?_
        split
        · exact grows_pushNode _
        · exact grows_pushNode _
      · exact grows_bindB grows_next_token fun _ => grows_pushNode _
      · exact grows_bindB grows_next_token fun _ => grows_pushNode _
      · exact grows_bindB grows_next_token fun _ =>
          grows_bindB (grows_bufExtend _) fun sr => grows_pushNode _
      · exact grows_bindB grows_next_token fun _ =>
          grows_bindB (grows_bufExtend _) fun sr => grows_pushNode _
      · exact grows_throw _
    -- normal_variant_arm
    · simp only [normal_variant_arm]
      refine grows_bindB ih.stok fun r0 => grows_bindB (grows_getNode _) fun nd => ?_
      refine grows_bindB ?_ fun r1 => grows_bindB (ih.snv _) fun _ => grows_pure _
      split
      · exact ih.merge _ _
      · exact grows_pure _
    -- transform_arm
    · intro t
      simp only [transform_arm]
      refine grows_bindB ih.stok fun r0 => grows_bindB (ih.tfl _ _) fun _ =>
        grows_bindB (grows_getNode _) fun nd => ?_
      split
      · exact ih.merge _ _
      · exact grows_pure _
    -- integral_arm
    · intro o
      simp only [integral_arm]
      refine grows_bindB grows_peekToken fun p => grows_ite ?_ ?_
      · refine grows_bindB grows_next_token fun _ =>
          grows_bindB (grows_pushNode _) fun target => grows_bindB ih.gb fun b => ?_
        split
        · exact grows_pushNode _
        · exact grows_pushNode _
        · exact grows_pushNode _
        · exact grows_pushNode _
      · refine grows_bindB (grows_pushNode _) fun target =>
          grows_bindB ih.gb fun b => ?_
        split
        · exact grows_pushNode _
        · exact grows_pushNode _
        · exact grows_pushNode _
        · exact grows_pushNode _
    -- left_arm
    · simp only [left_arm]
      refine grows_bindB grows_next_token fun t => ?_
      refine grows_bindB ?_ fun openOp => ?_
      · split
        · exact grows_pure _
        · exact grows_pure _
        · exact grows_ite (grows_pure _) (grows_throw _)
        · exact grows_throw _
      refine grows_bindB (ih.group _ _) fun content =>
        grows_bindB grows_next_token fun _ => grows_bindB grows_next_token fun t2 => ?_
      refine grows_bindB ?_ fun closeOp => ?_
      · split
        · exact grows_pure _
        · exact grows_pure _
        · exact grows_ite (grows_pure _) (grows_throw _)
        · exact grows_throw _
      exact grows_bindB (grows_squeeze _ _) fun sq => grows_pushNode _
    -- begin_arm
    · simp only [begin_arm]
      refine grows_bindB grows_check_lbrace fun _ =>
        grows_bindB grows_parse_text_group fun env => ?_
      refine grows_bindB ?_ fun nd => ?_
      · refine grows_ite (ih.table _) (grows_ite ?_ (grows_ite (ih.table _)
          (grows_ite ?_ (grows_throw _))))
        · exact grows_bindB (ih.table _) fun content =>
            grows_bindB (grows_pushNode _) fun cref => grows_pure _
        · exact grows_bindB (ih.table _) fun content =>
            grows_bindB (grows_pushNode _) fun cref => grows_pure _
      exact grows_bindB grows_check_lbrace fun _ =>
        grows_bindB grows_parse_text_group fun end_name =>
          grows_ite (grows_throw _) (grows_pushNode _)
    -- operatorname_arm
    · simp only [operatorname_arm]
      exact grows_bindB ih.stok fun r => grows_bindB (grows_getNode _) fun nd =>
        grows_bindB grows_bufEnd fun start => grows_bindB (ih.exl _) fun _ =>
          grows_bindB grows_bufEnd fun stop => grows_pushNode _
    -- parse_single_node
    · intro t
      cases t <;> simp only [parse_single_node] <;> first
        | exact grows_pushNode _
        | exact grows_throw _
        | exact ih.sqrt
        | exact ih.frac _
        | exact ih.binom _
        | exact ih.genfrac
        | exact ih.brace _ _
        | exact ih.bigop _
        | exact ih.lim _
        | exact ih.notA
        | exact ih.nv
        | exact ih.tr _
        | exact ih.intg _
        | exact ih.left
        | exact ih.beginA
        | exact ih.opname
        | exact grows_colon_arm
        | exact grows_middle_arm
        | exact grows_big_arm _
        | exact grows_bindB (grows_bpush _ _) fun b => grows_bindB (grows_bpush _ _)
            fun b2 => grows_pushNode _
        | exact grows_bindB (grows_bufPushStr _) fun sr => grows_pushNode _
        | exact grows_bindB ih.tok fun tg => grows_pushNode _
        | exact grows_bindB ih.tok fun s1 => grows_bindB ih.tok fun s2 =>
            grows_pushNode _
        | exact grows_bindB grows_next_token fun _ => grows_bindB ih.tok fun nd =>
            grows_bindB grows_next_token fun _ => grows_pushNode _
        | exact grows_bindB (ih.group _ _) fun content =>
            grows_bindB grows_next_token fun _ => grows_squeeze _ _
        | exact grows_bindB grows_check_lbrace fun _ =>
            grows_bindB grows_parse_text_group fun text => grows_pushNode _
        | exact grows_bindB (ih.group _ _) fun g => grows_pushNode _
        | exact grows_bindB ih.stok fun sub => grows_bindB ih.stok fun base =>
            grows_pushNode _

end Latex2mmlc
namespace Latex2mmlc

/-- C7: (1) `Arena::push` hands out the index of the newly appended
cell, which is strictly below the new arena length, and never shrinks
the arena; (2) the whole parser only ever grows the arena (for every
fuel and state); (3) hence any reference below the arena length at the
time it was handed out stays in bounds in every later arena, so
`Arena::get` on it cannot go out of bounds. -/
theorem c7_arena_in_bounds :
    (∀ (nd : Node) (s : PState) (r : NodeRef) (s' : PState),
        pushNode nd s = some (.ok (r, s')) →
        r < s'.arena.length ∧ s.arena.length ≤ s'.arena.length) ∧
    (∀ (fuel : Nat) (s : PState) (a : Node) (s' : PState),
        parse fuel s = some (.ok (a, s')) → s.arena.length ≤ s'.arena.length) ∧
    (∀ (r : NodeRef) (s s' : PState), r < s.arena.length →
        s.arena.length ≤ s'.arena.length → (s'.arena.get? r).isSome = true) := by
  refine ⟨fun nd s r s' h => ?_, fun fuel s a s' h => ?_, fun r s s' h1 h2 => ?_⟩
  · simp only [pushNode, Option.some.injEq, Except.ok.injEq, Prod.mk.injEq] at h
    obtain ⟨hr, hs⟩ := h
    rw [← hs, ← hr]
    simp
  · exact ((grows_all fuel).loop none).mono s a s' h
  · have hlt : r < s'.arena.length := Nat.lt_of_lt_of_le h1 h2
    cases hg : s'.arena.get? r with
    | none => exact absurd (List.get?_eq_none.mp hg) (Nat.not_le.mpr hlt)
    | some e => rfl

/-- C7 witness: pushing one node into the empty state hands out index 0
with arena length 1; a two-fuel parse of the empty input grows the
(empty) arena by nothing; and index 0 is in bounds of the one-cell
arena. -/
theorem c7_arena_in_bounds_witness :
    (0 < 1 ∧ 0 ≤ 1) ∧ 0 ≤ 0 ∧
    (([⟨Node.Mathstrut, none⟩] : List Elem).get? 0).isSome = true :=
  ⟨c7_arena_in_bounds.1 .Mathstrut ⟨[], .EOF, [], []⟩ 0
      ⟨[], .EOF, [], [⟨.Mathstrut, none⟩]⟩ rfl,
   c7_arena_in_bounds.2.1 2 ⟨[], .EOF, [], []⟩ (.PseudoRow none) ⟨[], .EOF, [], []⟩ rfl,
   c7_arena_in_bounds.2.2 0 ⟨[], .EOF, [], [⟨.Mathstrut, none⟩]⟩
      ⟨[], .EOF, [], [⟨.Mathstrut, none⟩]⟩ (by decide) (by decide)⟩

end Latex2mmlc
